import Mathlib

/-!
# Access-log capture and rotating persistence

A shallow embedding of three Go packages and the properties their design
document states about them:

* `accesslog` (`responsewriter.go`, `accesslog.go`): the response observer, the
  pattern compiler and the renderer;
* `accesslog/gin` (`gin.go`): the observer used under the gin framework;
* `cores/io` (`rollingwriter.go`): the rotating file writer and its policies.

Conventions of the embedding.

* A Go `string` or `[]byte` that holds text is a `List Char`; a payload whose
  content is irrelevant is a `List UInt8`.
* A `time.Time` is an `Int`: the nanoseconds elapsed on the wall clock since
  `0001-01-01 00:00:00`, the zero `time.Time`, in one location with a fixed
  offset (no daylight-saving transition is modelled).
* Go `int` and `int64` counters are `Int`; the byte counts and versions handled
  here stay far below `2^63`, so no wrap-around is modelled.
* The operating system, the clock and the wrapped writers are the environment:
  every reply they give is an explicit argument of the operation that asks.
* An `error` is the text of its message; `none` is Go's `nil` error.
-/

/-- An `error` value, identified by its message. -/
abbrev Error := List Char

/-- A `time.Time`: nanoseconds since the zero time on a fixed-offset wall clock. -/
abbrev Time := Int

/-- Go's `(time.Time).IsZero`. -/
def Time.IsZero (t : Time) : Bool := t == 0

namespace accesslog

/-! ## `responsewriter.go` -/

/-- The constant `noWritten`. -/
def noWritten : Int := -1

/-- The constant `http.StatusOK`. -/
def StatusOK : Int := 200

/-- The constant `defaultStatus`. -/
def defaultStatus : Int := StatusOK

/-- A call received by the wrapped `http.ResponseWriter`. -/
inductive Forwarded where
  | WriteHeader (code : Int)
  | Write (data : List UInt8)
  deriving DecidableEq, Repr

/-- The struct `responseWriter`. The embedded `http.ResponseWriter` is
represented by the calls forwarded to it so far, oldest first. -/
structure responseWriter where
  ResponseWriter : List Forwarded
  size : Int
  status : Int
  fbt : Time
  deriving DecidableEq, Repr

/-- The method `reset`; the wrapped writer given is `writer`. -/
def responseWriter.reset (w : responseWriter) (writer : List Forwarded) : responseWriter :=
  { w with ResponseWriter := writer, size := noWritten, status := defaultStatus }

/-- The constructor `NewResponseWriter`: a zero struct around `w`, then `reset`. -/
def NewResponseWriter (w : List Forwarded) : responseWriter :=
  responseWriter.reset { ResponseWriter := w, size := 0, status := 0, fbt := 0 } w

/-- The method `WriteHeader`; `now` is what `time.Now()` answers during the call. -/
def responseWriter.WriteHeader (now : Time) (code : Int) (w : responseWriter) : responseWriter :=
  if code > 0 ∧ w.status ≠ code then
    let w1 := { w with ResponseWriter := w.ResponseWriter ++ [Forwarded.WriteHeader code] }
    if w1.fbt.IsZero then
      { w1 with status := code, fbt := now }
    else
      w1
  else
    w

/-- The method `Write`; `reply` is the `(n, err)` the wrapped writer answers. -/
def responseWriter.Write (now : Time) (reply : Int × Option Error) (data : List UInt8)
    (w : responseWriter) : (Int × Option Error) × responseWriter :=
  let w1 := if w.fbt.IsZero then w.WriteHeader now StatusOK else w
  let w2 := { w1 with ResponseWriter := w1.ResponseWriter ++ [Forwarded.Write data] }
  (reply, { w2 with size := w2.size + reply.1 })

/-- The method `Status`. -/
def responseWriter.Status (w : responseWriter) : Int := w.status

/-- The method `Size`. -/
def responseWriter.Size (w : responseWriter) : Int :=
  if w.size = noWritten then 0 else w.size

/-- The method `FirstByteTime`. -/
def responseWriter.FirstByteTime (w : responseWriter) : Time := w.fbt

/-- One body write as the caller sees it: the clock reading, the wrapped
writer's reply and the payload. -/
structure BodyWrite where
  now : Time
  reply : Int × Option Error
  data : List UInt8

/-- A sequence of `Write` calls, in order. -/
def responseWriter.writeAll (w : responseWriter) (calls : List BodyWrite) : responseWriter :=
  calls.foldl (fun acc c => (acc.Write c.now c.reply c.data).2) w

/-- The byte counts the wrapped writer returned over a sequence of `Write` calls. -/
def bytesReturned (calls : List BodyWrite) : Int :=
  (calls.map (fun c => c.reply.1)).sum

/-- A call on the observer that can touch the first-byte time. -/
inductive Call where
  | WriteHeader (now : Time) (code : Int)
  | Write (now : Time) (reply : Int × Option Error) (data : List UInt8)

/-- The observer after one call. -/
def responseWriter.step (w : responseWriter) : Call → responseWriter
  | Call.WriteHeader now code => w.WriteHeader now code
  | Call.Write now reply data => (w.Write now reply data).2

end accesslog

namespace gin

/-! ## `gin/gin.go` -/

/-- A call received by the wrapped `gin.ResponseWriter`. -/
inductive Forwarded where
  | WriteHeaderNow
  | Write (data : List UInt8)
  | WriteString (s : List Char)
  deriving DecidableEq, Repr

/-- The struct `ResponseWriter` of package `gin`. The embedded
`gin.ResponseWriter` is the field `Embedded`: the calls forwarded to it, oldest
first. -/
structure ResponseWriter where
  Embedded : List Forwarded
  fbt : Time
  deriving DecidableEq, Repr

/-- The constructor `newResponseWriter`. -/
def newResponseWriter (writer : List Forwarded) : ResponseWriter :=
  { Embedded := writer, fbt := 0 }

/-- The method `FirstByteTime`. -/
def ResponseWriter.FirstByteTime (rw : ResponseWriter) : Time := rw.fbt

/-- The method `WriteHeaderNow`; `now` is what `time.Now()` answers. -/
def ResponseWriter.WriteHeaderNow (now : Time) (rw : ResponseWriter) : ResponseWriter :=
  let rw1 := { rw with Embedded := rw.Embedded ++ [Forwarded.WriteHeaderNow] }
  if rw1.fbt.IsZero then { rw1 with fbt := now } else rw1

/-- The method `Write`; `reply` is the `(n, err)` of the wrapped writer. -/
def ResponseWriter.Write (now : Time) (reply : Int × Option Error) (data : List UInt8)
    (rw : ResponseWriter) : (Int × Option Error) × ResponseWriter :=
  let rw1 := rw.WriteHeaderNow now
  (reply, { rw1 with Embedded := rw1.Embedded ++ [Forwarded.Write data] })

/-- The method `WriteString`. -/
def ResponseWriter.WriteString (now : Time) (reply : Int × Option Error) (s : List Char)
    (rw : ResponseWriter) : (Int × Option Error) × ResponseWriter :=
  let rw1 := rw.WriteHeaderNow now
  (reply, { rw1 with Embedded := rw1.Embedded ++ [Forwarded.WriteString s] })

/-- A call on the gin observer that can touch the first-byte time. -/
inductive Call where
  | WriteHeaderNow (now : Time)
  | Write (now : Time) (reply : Int × Option Error) (data : List UInt8)
  | WriteString (now : Time) (reply : Int × Option Error) (s : List Char)

/-- The gin observer after one call. -/
def ResponseWriter.step (rw : ResponseWriter) : Call → ResponseWriter
  | Call.WriteHeaderNow now => rw.WriteHeaderNow now
  | Call.Write now reply data => (rw.Write now reply data).2
  | Call.WriteString now reply s => (rw.WriteString now reply s).2

end gin

/-! ## Calendar arithmetic of package `time` used by the daily policy -/

/-- Nanoseconds in one calendar day of a fixed-offset location. -/
def nanosPerDay : Int := 86400000000000

/-- The calendar day a time falls on, counted from `0001-01-01` as day `0`. -/
def Time.dayNumber (t : Time) : Int := t / nanosPerDay

/-- Go's `t.AddDate(0, 0, n)`: the same wall-clock reading `n` days later. -/
def Time.AddDays (t : Time) (n : Int) : Time := t + n * nanosPerDay

/-- Go's `t.Before(u)`. -/
def Time.Before (t u : Time) : Bool := decide (t < u)

/-- The constant `maxDuration` of package `time`: `2^63 - 1` nanoseconds. -/
def maxDuration : Int := 9223372036854775807

/-- The constant `minDuration` of package `time`: `-2^63` nanoseconds. -/
def minDuration : Int := -9223372036854775808

/-- Go's `t.Sub(u)`, a `time.Duration` in nanoseconds: the difference, or the
largest or smallest duration when the difference does not fit. -/
def Time.Sub (t u : Time) : Int :=
  if t - u > maxDuration then maxDuration
  else if t - u < minDuration then minDuration
  else t - u

/-- The proleptic Gregorian `(year, month, day)` of a day number (day `0` is
`0001-01-01`), by the era / day-of-era decomposition. -/
def civilFromDays (d : Int) : Int × Int × Int :=
  let z := d + 306
  let era := z / 146097
  let doe := z - era * 146097
  let yoe := (doe - doe / 1460 + doe / 36524 - doe / 146096) / 365
  let doy := doe - (365 * yoe + yoe / 4 - yoe / 100)
  let mp := (5 * doy + 2) / 153
  let day := doy - (153 * mp + 2) / 5 + 1
  let month := if mp < 10 then mp + 3 else mp - 9
  let year := yoe + era * 400 + (if month ≤ 2 then 1 else 0)
  (year, month, day)

/-- Go's `appendInt` of package `time`: a sign, zero padding up to `width`
digits, the decimal digits. -/
def appendInt (x : Int) (width : Nat) : List Char :=
  let digits := Nat.toDigits 10 x.natAbs
  (if x < 0 then ['-'] else []) ++ List.replicate (width - digits.length) '0' ++ digits

/-- The date of a day number written as `YYYYMMDD`: four-digit year, two-digit
month, two-digit day. -/
def yyyymmdd (day : Int) : List Char :=
  let ymd := civilFromDays day
  appendInt ymd.1 4 ++ appendInt ymd.2.1 2 ++ appendInt ymd.2.2 2

/-- Go's `t.Format("20060102")`: the date of the day `t` falls on. -/
def Time.Format20060102 (t : Time) : List Char := yyyymmdd t.dayNumber

namespace io

/-! ## `io/rollingwriter.go` -/

/-- An open `*os.File`, identified by a number. A nil `*os.File` is `none`. -/
abbrev File := Nat

/-- An `os.FileInfo`: what the code reads of it. -/
structure FileInfo where
  Name : List Char
  Size : Int
  ModTime : Time
  deriving DecidableEq, Repr

/-- The error `os.ErrInvalid`, returned by the methods of a nil `*os.File`. -/
def ErrInvalid : Error := "invalid argument".toList

/-- The error `os.ErrNotExist`. -/
def ErrNotExist : Error := "file does not exist".toList

/-- The error `errTimePatternNotFound`. -/
def errTimePatternNotFound : Error := "time pattern not found".toList

/-- The constant `filepath.Separator`. -/
def Separator : Char := '/'

/-- Library functions that are used as given: `filepath.Dir`, and
`(time.Time).Format` for a caller-supplied layout. -/
structure Lib where
  Dir : List Char → List Char
  Format : Time → List Char → List Char

/-- What the operating system and the clock answer during one call of the
writer. Each of them is asked at most once per call, except `Stat`, asked twice
while the writer is opened and answering the same both times. -/
structure Os where
  Now : Time
  MkdirAll : Option Error
  OpenFile : Except Error File
  Stat : File → Except Error FileInfo
  Close : File → Option Error
  Rename : Option Error
  Write : File → List UInt8 → Int × Option Error
  WriteString : File → List Char → Int × Option Error

/-- A file-system call issued by the writer, with the reply where the reply
decides what happens next. -/
inductive FsCall where
  | MkdirAll (dir : List Char) (err : Option Error)
  | OpenFile (path : List Char) (reply : Except Error File)
  | Close (file : Option File) (err : Option Error)
  | Rename (oldpath newpath : List Char) (err : Option Error)
  | Write (file : Option File) (b : List UInt8)
  | WriteString (file : Option File) (s : List Char)

/-- The struct `dailyRollingManager`. Its field `rfw`, the back pointer to the
writer that owns the policy, is the writer passed to its methods. -/
structure dailyRollingManager where
  fileName : List Char
  fileExt : List Char
  rollingPoint : Time
  deriving DecidableEq, Repr

/-- The struct `timePatternRollingManager`; `rfw` as for the daily policy. -/
structure timePatternRollingManager where
  fileName : List Char
  fileExt : List Char
  pattern : List Char
  timestamp : List Char
  deriving DecidableEq, Repr

/-- The interface `RollingManager` with its two implementations. -/
inductive RollingManager where
  | daily (d : dailyRollingManager)
  | timePattern (t : timePatternRollingManager)
  deriving DecidableEq, Repr

/-- The struct `RollingFileWriter`. `rwMutex` has no state in a sequential run;
`calls` is not a field of the Go struct: it records the file-system calls the
writer has issued, oldest first. -/
structure RollingFileWriter where
  file : Option File
  path : List Char
  size : Int
  rv : Int
  rmg : RollingManager
  calls : List FsCall

/-- The method `Size`. -/
def RollingFileWriter.Size (r : RollingFileWriter) : Int := r.size

/-- The method `(*os.File).Stat`, nil receiver included. -/
def statFile (os : Os) : Option File → Except Error FileInfo
  | some f => os.Stat f
  | none => Except.error ErrInvalid

/-- The method `FileInfo`: the `Stat` of the open file; with a nil file every
path ends in `return nil, os.ErrNotExist`. -/
def RollingFileWriter.FileInfo (os : Os) (r : RollingFileWriter) : Except Error FileInfo :=
  match r.file with
  | some f => statFile os (some f)
  | none => Except.error ErrNotExist

/-- The method `openFile`: on failure `os.OpenFile` hands back a nil file. -/
def RollingFileWriter.openFile (os : Os) (r : RollingFileWriter) :
    Option Error × RollingFileWriter :=
  let r1 := { r with calls := r.calls ++ [FsCall.OpenFile r.path os.OpenFile] }
  match os.OpenFile with
  | Except.ok f => (none, { r1 with file := some f })
  | Except.error e => (some e, { r1 with file := none })

/-- The method `(*os.File).Close`, nil receiver included. -/
def closeFile (os : Os) : Option File → Option Error
  | some f => os.Close f
  | none => some ErrInvalid

/-- The method `roll`. The reply of `os.Rename` is not looked at. -/
def RollingFileWriter.roll (lib : Lib) (os : Os) (targetName : List Char)
    (r : RollingFileWriter) : Option Error × RollingFileWriter :=
  let err := closeFile os r.file
  let r1 := { r with calls := r.calls ++ [FsCall.Close r.file err] }
  match err with
  | some e => (some e, r1)
  | none =>
    let newPath := lib.Dir r1.path ++ [Separator] ++ targetName
    let r2 := { r1 with calls := r1.calls ++ [FsCall.Rename r1.path newPath os.Rename] }
    match r2.openFile os with
    | (some e, r3) => (some e, r3)
    | (none, r3) => (none, { r3 with size := 0 })

/-- The method `Roll`: `roll` under the exclusive lock. -/
def RollingFileWriter.Roll (lib : Lib) (os : Os) (targetName : List Char)
    (r : RollingFileWriter) : Option Error × RollingFileWriter :=
  r.roll lib os targetName

/-- The function `beginningOfTheDate`: `time.Date` of the year, month and day
of `t` at `00:00:00`, that is midnight of the day `t` falls on. -/
def beginningOfTheDate (t : Time) : Time := t - t % nanosPerDay

/-- Go's `filepath.Ext`: the suffix of the last path element that starts at its
final dot, empty when there is none. The argument is scanned from its end. -/
def ExtAux : List Char → List Char → List Char
  | [], _ => []
  | c :: rev, acc =>
    if c = Separator then []
    else if c = '.' then c :: acc
    else ExtAux rev (c :: acc)

/-- Go's `filepath.Ext`. -/
def Ext (path : List Char) : List Char := ExtAux path.reverse []

/-- Go's `strings.TrimSuffix`. -/
def TrimSuffix (s suffix : List Char) : List Char :=
  if suffix.isSuffixOf s then s.take (s.length - suffix.length) else s

/-- The method `Initialize` of the daily policy, called on the writer `rfw`. -/
def dailyRollingManager.Initialize (os : Os) (rfw : RollingFileWriter)
    (d : dailyRollingManager) : Option Error × dailyRollingManager :=
  match rfw.FileInfo os with
  | Except.error err => (some err, d)
  | Except.ok fileInfo =>
    let fileExt := Ext fileInfo.Name
    let fileName := TrimSuffix fileInfo.Name fileExt
    if rfw.Size > 0 then
      (none, { fileName := fileName, fileExt := fileExt,
               rollingPoint := beginningOfTheDate (fileInfo.ModTime.AddDays 1) })
    else
      (none, { fileName := fileName, fileExt := fileExt,
               rollingPoint := beginningOfTheDate (os.Now.AddDays 1) })

/-- The method `ShouldRoll` of the daily policy; `now` is `time.Now()` and
`rfw` the writer the policy was initialized on. -/
def dailyRollingManager.ShouldRoll (now : Time) (rfw : RollingFileWriter)
    (d : dailyRollingManager) : (Bool × List Char) × dailyRollingManager :=
  if now.Before d.rollingPoint then
    ((false, []), d)
  else if rfw.Size = 0 then
    ((false, []), { d with rollingPoint := beginningOfTheDate (now.AddDays 1) })
  else
    ((true, d.fileName ++ ['.'] ++ (d.rollingPoint.AddDays (-1)).Format20060102 ++ d.fileExt),
     { d with rollingPoint := beginningOfTheDate (now.AddDays 1) })

/-- The method `Initialize` of the pattern policy. -/
def timePatternRollingManager.Initialize (lib : Lib) (os : Os) (rfw : RollingFileWriter)
    (t : timePatternRollingManager) : Option Error × timePatternRollingManager :=
  if t.pattern = [] then
    (some errTimePatternNotFound, t)
  else
    match rfw.FileInfo os with
    | Except.error err => (some err, t)
    | Except.ok fileInfo =>
      let fileExt := Ext fileInfo.Name
      let fileName := TrimSuffix fileInfo.Name fileExt
      if rfw.Size > 0 then
        (none, { t with fileName := fileName, fileExt := fileExt,
                        timestamp := lib.Format fileInfo.ModTime t.pattern })
      else
        (none, { t with fileName := fileName, fileExt := fileExt,
                        timestamp := lib.Format os.Now t.pattern })

/-- The method `ShouldRoll` of the pattern policy. -/
def timePatternRollingManager.ShouldRoll (lib : Lib) (now : Time) (rfw : RollingFileWriter)
    (t : timePatternRollingManager) : (Bool × List Char) × timePatternRollingManager :=
  let currentTimestamp := lib.Format now t.pattern
  if currentTimestamp = t.timestamp then
    ((false, []), t)
  else if rfw.Size = 0 then
    ((false, []), { t with timestamp := currentTimestamp })
  else
    ((true, t.fileName ++ ['.'] ++ t.timestamp ++ t.fileExt),
     { t with timestamp := currentTimestamp })

/-- The constructor `NewTimePatternRollingManager`. -/
def NewTimePatternRollingManager (pattern : List Char) : RollingManager :=
  RollingManager.timePattern { fileName := [], fileExt := [], pattern := pattern, timestamp := [] }

/-- The zero `dailyRollingManager` that `NewDailyRollingManager` allocates. -/
def NewDailyRollingManagerState : dailyRollingManager :=
  { fileName := [], fileExt := [], rollingPoint := 0 }

/-- The constructor `NewDailyRollingManager`. -/
def NewDailyRollingManager : RollingManager :=
  RollingManager.daily NewDailyRollingManagerState

/-- The interface method `Initialize`, dispatched on the implementation. -/
def RollingManager.Initialize (lib : Lib) (os : Os) (rfw : RollingFileWriter) :
    RollingManager → Option Error × RollingManager
  | RollingManager.daily d =>
    ((d.Initialize os rfw).1, RollingManager.daily (d.Initialize os rfw).2)
  | RollingManager.timePattern t =>
    ((t.Initialize lib os rfw).1, RollingManager.timePattern (t.Initialize lib os rfw).2)

/-- The interface method `ShouldRoll`, dispatched on the implementation. -/
def RollingManager.ShouldRoll (lib : Lib) (now : Time) (rfw : RollingFileWriter) :
    RollingManager → (Bool × List Char) × RollingManager
  | RollingManager.daily d =>
    ((d.ShouldRoll now rfw).1, RollingManager.daily (d.ShouldRoll now rfw).2)
  | RollingManager.timePattern t =>
    ((t.ShouldRoll lib now rfw).1, RollingManager.timePattern (t.ShouldRoll lib now rfw).2)

/-- The part of `checkRolling` that runs under `rwMutex.Lock()`: the version
read before the lock is compared with the current one, and only on equality
the file is rolled and the version incremented. The result of `roll` is
dropped. -/
def RollingFileWriter.checkRollingLocked (lib : Lib) (os : Os) (ver : Int)
    (targetName : List Char) (r : RollingFileWriter) : RollingFileWriter :=
  if ver = r.rv then
    let r1 := (r.roll lib os targetName).2
    { r1 with rv := r1.rv + 1 }
  else
    r

/-- The method `checkRolling`: read the version, ask the policy, and when a
roll is due run the locked part. -/
def RollingFileWriter.checkRolling (lib : Lib) (os : Os) (r : RollingFileWriter) :
    RollingFileWriter :=
  let ver := r.rv
  let asked := r.rmg.ShouldRoll lib os.Now r
  let r1 := { r with rmg := asked.2 }
  if asked.1.1 then r1.checkRollingLocked lib os ver asked.1.2 else r1

/-- The method `(*os.File).Write`, nil receiver included. -/
def writeFile (os : Os) (b : List UInt8) : Option File → Int × Option Error
  | some f => os.Write f b
  | none => (0, some ErrInvalid)

/-- The method `(*os.File).WriteString`, nil receiver included. -/
def writeStringFile (os : Os) (s : List Char) : Option File → Int × Option Error
  | some f => os.WriteString f s
  | none => (0, some ErrInvalid)

/-- The method `Write`. -/
def RollingFileWriter.Write (lib : Lib) (os : Os) (b : List UInt8) (r : RollingFileWriter) :
    (Int × Option Error) × RollingFileWriter :=
  let r1 := r.checkRolling lib os
  let res := writeFile os b r1.file
  (res, { r1 with size := r1.size + res.1, calls := r1.calls ++ [FsCall.Write r1.file b] })

/-- The method `WriteString`. -/
def RollingFileWriter.WriteString (lib : Lib) (os : Os) (s : List Char)
    (r : RollingFileWriter) : (Int × Option Error) × RollingFileWriter :=
  let r1 := r.checkRolling lib os
  let res := writeStringFile os s r1.file
  (res, { r1 with size := r1.size + res.1,
                  calls := r1.calls ++ [FsCall.WriteString r1.file s] })

/-- The method that opens the writer (named after the Go method that does it):
create the directory unless it is `"."`, open the file, take its size from
`Stat`, initialize the policy. -/
def RollingFileWriter.initializeWriter (lib : Lib) (os : Os) (r : RollingFileWriter) :
    Option Error × RollingFileWriter :=
  let logDir := lib.Dir r.path
  let mk : Option Error × RollingFileWriter :=
    if logDir ≠ ['.'] then
      (os.MkdirAll, { r with calls := r.calls ++ [FsCall.MkdirAll logDir os.MkdirAll] })
    else (none, r)
  match mk with
  | (some err, r1) => (some err, r1)
  | (none, r1) =>
    match r1.openFile os with
    | (some err, r2) => (some err, r2)
    | (none, r2) =>
      match statFile os r2.file with
      | Except.error err => (some err, r2)
      | Except.ok fi =>
        let r3 := { r2 with size := fi.Size }
        let done := r3.rmg.Initialize lib os r3
        (done.1, { r3 with rmg := done.2 })

/-- The constructor `NewRollingFileWriter`. -/
def NewRollingFileWriter (lib : Lib) (os : Os) (filePath : List Char) (rmg : RollingManager) :
    RollingFileWriter × Option Error :=
  let rw : RollingFileWriter :=
    { file := none, path := filePath, size := 0, rv := 0, rmg := rmg, calls := [] }
  ((rw.initializeWriter lib os).2, (rw.initializeWriter lib os).1)

/-- A write request: `Write(b)` or `WriteString(s)`. -/
inductive Payload where
  | bytes (b : List UInt8)
  | text (s : List Char)

/-- One write request together with what the environment answers during it. -/
structure WriteCall where
  os : Os
  payload : Payload

/-- The length in bytes of a payload: `len(b)`, or `len(s)` of a string in
UTF-8. -/
def Payload.len : Payload → Int
  | Payload.bytes b => b.length
  | Payload.text s => ((s.map Char.utf8Size).sum : Nat)

/-- What the open file `f` answers to a write request: the `(n, err)` of
`f.Write(b)` or of `f.WriteString(s)`. -/
def WriteCall.fileReply (c : WriteCall) (f : File) : Int × Option Error :=
  match c.payload with
  | Payload.bytes b => c.os.Write f b
  | Payload.text s => c.os.WriteString f s

/-- The file-system call a write request makes on the open file `f`:
`f.Write(b)` or `f.WriteString(s)` with the payload of the request. -/
def WriteCall.fsCall (c : WriteCall) (f : File) : FsCall :=
  match c.payload with
  | Payload.bytes b => FsCall.Write (some f) b
  | Payload.text s => FsCall.WriteString (some f) s

/-- One write request carried out: the `(n, err)` returned and the writer after. -/
def RollingFileWriter.perform (lib : Lib) (r : RollingFileWriter) (c : WriteCall) :
    (Int × Option Error) × RollingFileWriter :=
  match c.payload with
  | Payload.bytes b => r.Write lib c.os b
  | Payload.text s => r.WriteString lib c.os s

/-- A sequence of write requests carried out in order: the writer after the
last one, and the `(n, err)` returned by each. -/
def RollingFileWriter.performAll (lib : Lib) :
    RollingFileWriter → List WriteCall → List (Int × Option Error) × RollingFileWriter
  | r, [] => ([], r)
  | r, c :: cs =>
    let one := r.perform lib c
    let more := RollingFileWriter.performAll lib one.2 cs
    (one.1 :: more.1, more.2)

/-- Whether no roll is due at any request of a sequence of write requests:
at each request, on the writer as the earlier requests left it, the policy
answers "no roll". -/
def RollingFileWriter.noRollDue (lib : Lib) : RollingFileWriter → List WriteCall → Bool
  | _, [] => true
  | r, c :: cs =>
    !(r.rmg.ShouldRoll lib c.os.Now r).1.1
      && RollingFileWriter.noRollDue lib (r.perform lib c).2 cs

/-- A caller stopped between the unlocked part of `checkRolling` and
`rwMutex.Lock()`: the version it read, the target name the policy gave it
(it observed "roll due"), and what the operating system will answer it. -/
structure Waiting where
  ver : Int
  targetName : List Char
  os : Os

/-- The callers waiting on `rwMutex.Lock()` run the locked part of
`checkRolling` one after the other, in the order of the list. -/
def RollingFileWriter.runWaiting (lib : Lib) (r : RollingFileWriter) (ws : List Waiting) :
    RollingFileWriter :=
  ws.foldl (fun acc w => acc.checkRollingLocked lib w.os w.ver w.targetName) r

/-- The number of `Close` calls in a trace: each run of `roll` issues exactly one. -/
def closeCalls (calls : List FsCall) : Nat :=
  (calls.filter (fun c => match c with | FsCall.Close _ _ => true | _ => false)).length

/-- The number of `os.Rename` calls in a trace. -/
def renameCalls (calls : List FsCall) : Nat :=
  (calls.filter (fun c => match c with | FsCall.Rename _ _ _ => true | _ => false)).length

/-! ### Concrete inputs -/

/-- A library whose `filepath.Dir` answers `"."` and whose `Format` writes the
layout itself. -/
def sampleLib : Lib := { Dir := fun _ => ['.'], Format := fun _ layout => layout }

/-- An operating system where every call succeeds: the clock reads `now`, the
file opened is number 2, `Stat` reports `app.log` with the given size and
modification time, and a write takes the whole payload. -/
def sampleOs (now : Time) (size : Int) (modTime : Time) : Os :=
  { Now := now, MkdirAll := none, OpenFile := Except.ok 2,
    Stat := fun _ => Except.ok { Name := "app.log".toList, Size := size, ModTime := modTime },
    Close := fun _ => none, Rename := none,
    Write := fun _ b => (b.length, none), WriteString := fun _ s => (s.length, none) }

/-- The same operating system, except that `os.Rename` fails. -/
def sampleOsRenameFails (now : Time) : Os :=
  { sampleOs now 10 0 with Rename := some "rename: permission denied".toList }

/-- The same operating system, except that closing a file fails. -/
def sampleOsCloseFails (now : Time) : Os :=
  { sampleOs now 10 0 with Close := fun _ => some "close: input/output error".toList }

/-- Two write requests on 2024-02-29: `Write` of three bytes, `WriteString` of
two characters. -/
def sampleCalls : List WriteCall :=
  [ { os := sampleOs (738944 * nanosPerDay + 100) 0 0, payload := Payload.bytes [1, 2, 3] },
    { os := sampleOs (738944 * nanosPerDay + 200) 0 0, payload := Payload.text ['o', 'k'] } ]

/-- Two callers that read version 0 and were told to roll to `app.20240229.log`;
closing the file fails for the first of them. -/
def sampleWaiting : List Waiting :=
  [ { ver := 0, targetName := "app.20240229.log".toList,
      os := sampleOsCloseFails (738946 * nanosPerDay + 5) },
    { ver := 0, targetName := "app.20240229.log".toList,
      os := sampleOs (738946 * nanosPerDay + 6) 10 0 } ]

/-- The day number of 2024-02-29. -/
def sampleDay : Int := 738944

/-- A writer on the open file number 1 holding 10 bytes, with a daily policy
whose boundary is midnight of 2024-03-01. -/
def sampleWriter : RollingFileWriter :=
  { file := some 1, path := "app.log".toList, size := 10, rv := 0,
    rmg := RollingManager.daily
      { fileName := "app".toList, fileExt := ".log".toList,
        rollingPoint := (sampleDay + 1) * nanosPerDay },
    calls := [] }

end io

namespace accesslog

/-! ## `accesslog.go`: the pattern compiler -/

/-- The argument list of `strings.NewReplacer` in `buildTemplate`: each
single-letter directive with the template text that replaces it. -/
def directives : List (List Char × List Char) :=
  [ ("%a".toList, "$\x7bRemoteIP\x7d".toList),
    ("%A".toList, "$\x7bLocalIP\x7d".toList),
    ("%b".toList, "$\x7bBytesSent|-\x7d".toList),
    ("%B".toList, "$\x7bBytesSent|0\x7d".toList),
    ("%H".toList, "$\x7bProto\x7d".toList),
    ("%m".toList, "$\x7bMethod\x7d".toList),
    ("%q".toList, "$\x7bQueryString\x7d".toList),
    ("%r".toList, "$\x7bMethod\x7d $\x7bRequestURI\x7d $\x7bProto\x7d".toList),
    ("%s".toList, "$\x7bStatusCode\x7d".toList),
    ("%t".toList, "$\x7bReceivedAt|02/Jan/2006:15:04:05 -0700\x7d".toList),
    ("%U".toList, "$\x7bURLPath\x7d".toList),
    ("%D".toList, "$\x7bLatency|ms\x7d".toList),
    ("%T".toList, "$\x7bLatency|s\x7d".toList),
    ("%F".toList, "$\x7bFirstByteTime|ms\x7d".toList) ]

/-- The first pair of a replacer table, in argument order, whose old string
starts the text. -/
def lookupOld (pairs : List (List Char × List Char)) (s : List Char) :
    Option (List Char × List Char) :=
  pairs.find? (fun p => p.1.isPrefixOf s)

/-- Go's `(*strings.Replacer).Replace` for a table of non-empty old strings:
the text is read left to right; where an old string starts, its new string is
written and the old string skipped; elsewhere the character is copied. The
first argument counts the characters still to skip. -/
def replaceAux (pairs : List (List Char × List Char)) : Nat → List Char → List Char
  | _, [] => []
  | k + 1, _ :: s => replaceAux pairs k s
  | 0, c :: s =>
    match lookupOld pairs (c :: s) with
    | some p => p.2 ++ replaceAux pairs (p.1.length - 1) s
    | none => c :: replaceAux pairs 0 s

/-- The call `strings.NewReplacer(...).Replace(s)` of `buildTemplate`. -/
def Replace (s : List Char) : List Char := replaceAux directives 0 s

/-- A match of the regular expression `%(\{([^\}]+)\}){1}x` at the start of the
text, for the final letter `x`: the text of group 2, the characters between the
braces. The group `[^\}]+` takes every character up to the first closing
brace, so a match at a given place is unique. -/
def matchDirective (x : Char) : List Char → Option (List Char)
  | '%' :: '{' :: s =>
    match s.dropWhile (fun c => c ≠ '}') with
    | '}' :: y :: _ =>
      if y = x ∧ s.takeWhile (fun c => c ≠ '}') ≠ [] then
        some (s.takeWhile (fun c => c ≠ '}'))
      else none
    | _ => none
  | _ => none

/-- The whole text matched by `%(\{([^\}]+)\}){1}x` when group 2 is `name`. -/
def wholeMatch (x : Char) (name : List Char) : List Char :=
  '%' :: '{' :: (name ++ ['}', x])

/-- Go's leftmost, non-overlapping replacement of every match of
`%(\{([^\}]+)\}){1}x`: a match is replaced by `repl` of its group 2 and
skipped, any other character is copied. The first argument counts the
characters of the current match still to skip. -/
def replaceAllAux (x : Char) (repl : List Char → List Char) : Nat → List Char → List Char
  | _, [] => []
  | k + 1, _ :: s => replaceAllAux x repl k s
  | 0, c :: s =>
    match matchDirective x (c :: s) with
    | some name => repl name ++ replaceAllAux x repl (name.length + 3) s
    | none => c :: replaceAllAux x repl 0 s

/-- Go's `strings.ToLower`, exact on ASCII text; a character outside ASCII is
left as it is, where Go applies the Unicode lower-case mapping. -/
def ToLower (s : List Char) : List Char := s.map Char.toLower

/-- A character of a group name in a replacement template: a letter, a digit
or an underscore (the templates of `buildTemplate` are ASCII). -/
def isNameChar (c : Char) : Bool := c.isAlphanum || c == '_'

/-- The function `extract` of package `regexp`, on the text that follows a
dollar sign: the name of the group referred to, as `name` or `{name}`, and
the number of characters the reference takes; `none` when malformed. -/
def extract (t : List Char) : Option (List Char × Nat) :=
  match t with
  | '{' :: u =>
    if u.takeWhile isNameChar = [] then none
    else
      match u.dropWhile isNameChar with
      | '}' :: _ => some (u.takeWhile isNameChar, (u.takeWhile isNameChar).length + 2)
      | _ => none
  | u =>
    if u.takeWhile isNameChar = [] then none
    else some (u.takeWhile isNameChar, (u.takeWhile isNameChar).length)

/-- The text a group reference stands for in a match of
`%(\{([^\}]+)\}){1}x`: groups `0`, `1` and `2`; any other number or name is
empty. -/
def groupText (x : Char) (name : List Char) (ref : List Char) : List Char :=
  if ref = ['0'] then wholeMatch x name
  else if ref = ['1'] then '{' :: (name ++ ['}'])
  else if ref = ['2'] then name
  else []

/-- The method `expand` of package `regexp`: a doubled dollar sign is one
dollar sign, a well-formed reference is replaced by its group, a dollar sign
that starts no reference is copied. The first argument counts the characters
still to skip. -/
def expandAux (group : List Char → List Char) : Nat → List Char → List Char
  | _, [] => []
  | k + 1, _ :: t => expandAux group k t
  | 0, c :: t =>
    if c = '$' then
      match t with
      | '$' :: _ => '$' :: expandAux group 1 t
      | _ =>
        match extract t with
        | some ref => group ref.1 ++ expandAux group ref.2 t
        | none => '$' :: expandAux group 0 t
    else c :: expandAux group 0 t

/-- Go's `ReplaceAllString(src, template)` for `%(\{([^\}]+)\}){1}x`. -/
def ReplaceAllString (x : Char) (src template : List Char) : List Char :=
  replaceAllAux x (fun name => expandAux (groupText x name) 0 template) 0 src

/-- Go's `ReplaceAllStringFunc(src, f)` for `%(\{([^\}]+)\}){1}x`. -/
def ReplaceAllStringFunc (x : Char) (src : List Char) (f : List Char → List Char) : List Char :=
  replaceAllAux x (fun name => f (wholeMatch x name)) 0 src

/-- The template text `buildTemplate` hands to `fasttemplate.NewTemplate`. -/
def templateText (pattern : List Char) : List Char :=
  let t0 := Replace pattern
  let t1 := ReplaceAllString 't' t0 "$\x7bReceivedAt|$2\x7d".toList
  let t2 := ReplaceAllStringFunc 'i' t1 ToLower
  let t3 := ReplaceAllString 'i' t2 "$\x7bRequestHeader|$2\x7d".toList
  let t4 := ReplaceAllStringFunc 'o' t3 ToLower
  ReplaceAllString 'o' t4 "$\x7bResponseHeader|$2\x7d".toList

/-! ### The template engine `fasttemplate`, with start tag `${` and end tag `}` -/

/-- A `fasttemplate.Template`: `texts` are the spans between the tags and
`tags` the tag names; both are empty when the text holds no start tag. -/
structure Template where
  template : List Char
  texts : List (List Char)
  tags : List (List Char)
  deriving DecidableEq, Repr

/-- The loop of `(*Template).Reset`: the text up to the next start tag is a
span, the text from there up to the next end tag is a tag name, and a start
tag that no end tag follows is an error (`none`). The flag says whether a tag
is open; `cur` is the span or name read so far, last character first. -/
def resetLoop : Bool → List Char → List Char → Option (List (List Char) × List (List Char))
  | false, cur, [] => some ([cur.reverse], [])
  | false, cur, '$' :: '{' :: s =>
    (resetLoop true [] s).map (fun r => (cur.reverse :: r.1, r.2))
  | false, cur, c :: s => resetLoop false (c :: cur) s
  | true, _, [] => none
  | true, cur, '}' :: s =>
    (resetLoop false [] s).map (fun r => (r.1, cur.reverse :: r.2))
  | true, cur, c :: s => resetLoop true (c :: cur) s

/-- Whether the start tag occurs in the text (`bytes.Count(s, a) > 0`). -/
def hasStartTag : List Char → Bool
  | '$' :: '{' :: _ => true
  | _ :: s => hasStartTag s
  | [] => false

/-- The error of `fasttemplate.NewTemplate` (its message names the template). -/
def errNoEndTag : Error := "Cannot find end tag".toList

/-- The function `fasttemplate.NewTemplate(template, "${", "}")`. -/
def NewTemplate (template : List Char) : Except Error Template :=
  if hasStartTag template then
    match resetLoop false [] template with
    | some r => Except.ok { template := template, texts := r.1, tags := r.2 }
    | none => Except.error errNoEndTag
  else
    Except.ok { template := template, texts := [], tags := [] }

/-- The loop of `(*Template).ExecuteFunc` into a buffer: span, tag value,
span, ..., last span. -/
def executeLoop (f : List Char → List Char) : List (List Char) → List (List Char) → List Char
  | [], _ => []
  | [last], _ => last
  | text :: texts, tag :: tags => text ++ f tag ++ executeLoop f texts tags
  | text :: texts, [] => text ++ executeLoop f texts []

/-- The method `(*Template).ExecuteFunc` writing into a `bytes.Buffer`, whose
`Write` never fails: the bytes written. -/
def Template.ExecuteFunc (t : Template) (f : List Char → List Char) : List Char :=
  match t.texts with
  | [] => t.template
  | texts => executeLoop f texts t.tags

/-- The method `buildTemplate`, as a function of the pattern. -/
def buildTemplate (pattern : List Char) : Except Error Template :=
  NewTemplate (templateText pattern)

/-- The struct `AccessLogger`; `output` is the environment's. -/
structure AccessLogger where
  pattern : List Char
  localIP : List Char
  template : Template
  deriving DecidableEq, Repr

/-- The constructor `NewLogger` called with `Pattern(pattern)`; `localIPReply`
is what the function `localIP`, which asks the network stack, returns. -/
def NewLogger (pattern : List Char) (localIPReply : Except Error (List Char)) :
    Except Error AccessLogger :=
  match buildTemplate pattern with
  | Except.error err => Except.error err
  | Except.ok template =>
    match localIPReply with
    | Except.error err => Except.error err
    | Except.ok ip => Except.ok { pattern := pattern, localIP := ip, template := template }

/-! ## `accesslog.go`: the renderer -/

/-- An `http.Header`: keys with their values; the first entry of a key counts. -/
abbrev Header := List (List Char × List (List Char))

/-- The type `url.URL`: the fields the renderer reads. -/
structure URL where
  Path : List Char
  RawQuery : List Char
  deriving DecidableEq, Repr

/-- The struct `Item`. `Latency` is a `time.Duration`, in nanoseconds. -/
structure Item where
  URL : URL
  RequestHeader : Header
  ResponseHeader : Header
  RemoteAddr : List Char
  Method : List Char
  Proto : List Char
  ReceivedAt : Time
  FirstByteTime : Time
  Latency : Int
  BytesSent : Int
  StatusCode : Int
  deriving DecidableEq, Repr

/-- The method `QueryString`. -/
def Item.QueryString (i : Item) : List Char :=
  if i.URL.RawQuery ≠ [] then '?' :: i.URL.RawQuery else []

/-- Library functions the renderer uses as given: `(time.Time).Format` for a
layout, `strconv.FormatFloat(d.Seconds(), 'f', 3, 64)` for a duration `d`, and
`(*url.URL).RequestURI`. -/
structure Lib where
  Format : Time → List Char → List Char
  FormatSeconds : Int → List Char
  RequestURI : URL → List Char

/-- Go's `strconv.Itoa` and `strconv.FormatInt(x, 10)`. -/
def Itoa (x : Int) : List Char :=
  if x < 0 then '-' :: Nat.toDigits 10 x.natAbs else Nat.toDigits 10 x.toNat

/-- Go's `unicode.IsSpace`. -/
def isSpace (c : Char) : Bool :=
  let n := c.toNat
  (9 ≤ n && n ≤ 13) || n == 32 || n == 133 || n == 160 || n == 5760
    || (8192 ≤ n && n ≤ 8202) || n == 8232 || n == 8233 || n == 8239 || n == 8287
    || n == 12288

/-- Go's `strings.TrimSpace`. -/
def TrimSpace (s : List Char) : List Char :=
  ((s.dropWhile isSpace).reverse.dropWhile isSpace).reverse

/-- The function `getRemoteIP`: `strings.SplitN(remoteIP, ":", 2)[0]` is the
text before the first colon. -/
def getRemoteIP (addr : List Char) : List Char :=
  let remoteIP := TrimSpace addr
  if remoteIP.length > 0 then remoteIP.takeWhile (fun c => c ≠ ':') else []

/-- The bytes of a header name: letters, digits and the punctuation of a token. -/
def validHeaderFieldByte (c : Char) : Bool :=
  c.isAlphanum || "!#$%&*+-.^_|~".toList.contains c || c.toNat == 39 || c.toNat == 96

/-- The canonical form of a well-formed header name: an upper-case letter
first and after each hyphen, lower-case letters elsewhere. The flag says
whether the next letter is to be upper-case. -/
def canonicalize : Bool → List Char → List Char
  | _, [] => []
  | upper, c :: s =>
    let c1 := if upper then c.toUpper else c.toLower
    c1 :: canonicalize (c1 == '-') s

/-- Go's `textproto.CanonicalMIMEHeaderKey`: a name with a byte that is not
allowed in header names is returned unchanged. -/
def CanonicalMIMEHeaderKey (s : List Char) : List Char :=
  if s.all validHeaderFieldByte then canonicalize true s else s

/-- Go's `(http.Header).Get`: the first value stored under the canonical form
of the key, or the empty string. -/
def Header.Get (h : Header) (key : List Char) : List Char :=
  match h.lookup (CanonicalMIMEHeaderKey key) with
  | some (v :: _) => v
  | _ => []

/-- The dash written for an absent value. -/
def dash : List Char := ['-']

/-- The constant `newLine`. -/
def newLine : Char := '\n'

/-- The text that precedes the first `|` of a tag and the text that follows
it, when `strings.Index(tag, "|")` is positive. -/
def splitTag (tag : List Char) : Option (List Char × List Char) :=
  if 0 < (tag.takeWhile (fun c => c ≠ '|')).length
      ∧ (tag.takeWhile (fun c => c ≠ '|')).length < tag.length then
    some (tag.takeWhile (fun c => c ≠ '|'), (tag.dropWhile (fun c => c ≠ '|')).drop 1)
  else none

/-- The tag function of the method `log`: what is written for a tag. -/
def tagValue (lib : Lib) (a : AccessLogger) (item : Item) (tag : List Char) : List Char :=
  if tag = "RemoteIP".toList then getRemoteIP item.RemoteAddr
  else if tag = "LocalIP".toList then a.localIP
  else if tag = "BytesSent|-".toList then
    (if item.BytesSent = 0 then dash else Itoa item.BytesSent)
  else if tag = "BytesSent|0".toList then Itoa item.BytesSent
  else if tag = "Proto".toList then item.Proto
  else if tag = "Method".toList then item.Method
  else if tag = "QueryString".toList then item.QueryString
  else if tag = "RequestURI".toList then lib.RequestURI item.URL
  else if tag = "URLPath".toList then item.URL.Path
  else if tag = "StatusCode".toList then Itoa item.StatusCode
  else if tag = "Latency|ms".toList then Itoa (item.Latency.tdiv 1000000)
  else if tag = "Latency|s".toList then lib.FormatSeconds item.Latency
  else if tag = "FirstByteTime|ms".toList then
    (if item.FirstByteTime.IsZero then dash
     else Itoa ((item.FirstByteTime.Sub item.ReceivedAt).tdiv 1000000))
  else
    match splitTag tag with
    | some (kind, arg) =>
      if kind = "ReceivedAt".toList then lib.Format item.ReceivedAt arg
      else if kind = "RequestHeader".toList then
        (if item.RequestHeader.Get arg = [] then dash else item.RequestHeader.Get arg)
      else if kind = "ResponseHeader".toList then
        (if item.ResponseHeader.Get arg = [] then dash else item.ResponseHeader.Get arg)
      else []
    | none => []

/-- The line the method `log` hands to the output: the template executed on
the item, then a newline. -/
def AccessLogger.line (lib : Lib) (a : AccessLogger) (item : Item) : List Char :=
  a.template.ExecuteFunc (tagValue lib a item) ++ [newLine]

/-- The error of `ExecuteFunc` in the method `log`: every write of the
template and of the tag function goes to a `bytes.Buffer`, whose `Write`
always returns a nil error. -/
def executeError : Option Error := none

/-- The method `log`. The output `a.output` is the environment's: `written`
are the byte slices it has received so far, oldest first, and `outReply` is
the `(n, err)` its `Write` answers. Returned: the error of `log` and the
output afterwards. -/
def AccessLogger.log (lib : Lib) (outReply : List Char → Int × Option Error)
    (written : List (List Char)) (a : AccessLogger) (item : Item) :
    Option Error × List (List Char) :=
  match executeError with
  | some err => (some err, written)
  | none => ((outReply (a.line lib item)).2, written ++ [a.line lib item])

/-- Compile a pattern and render one item: the line handed to the output, or
the error of `NewLogger`. -/
def render (lib : Lib) (pattern : List Char) (localIPReply : Except Error (List Char))
    (item : Item) : Except Error (List Char) :=
  match NewLogger pattern localIPReply with
  | Except.ok a => Except.ok (a.line lib item)
  | Except.error err => Except.error err

/-! ### The tag scanner as an automaton

Where the reading of `fasttemplate` stands after a text: outside a tag, outside
a tag just after a dollar sign, or inside a tag. Used to show which template
texts `NewTemplate` accepts. -/

/-- The position of the tag scanner. -/
inductive Scan where
  | text
  | dollar
  | tag
  deriving DecidableEq, Repr

/-- One character read by the tag scanner. -/
def scanStep : Scan → Char → Scan
  | Scan.tag, c => if c = '}' then Scan.text else Scan.tag
  | Scan.dollar, c => if c = '$' then Scan.dollar else if c = '{' then Scan.tag else Scan.text
  | Scan.text, c => if c = '$' then Scan.dollar else Scan.text

/-- The position of the tag scanner after a text. -/
def scan (q : Scan) (s : List Char) : Scan := s.foldl scanStep q

/-! ### Concrete inputs -/

/-- A library whose `Format` writes the layout itself, whose `FormatSeconds`
writes `0.002` and whose `RequestURI` is the path. -/
def sampleLib : Lib :=
  { Format := fun _ layout => layout, FormatSeconds := fun _ => "0.002".toList,
    RequestURI := fun u => u.Path }

/-- A request for `/a` that carried `Content-Length: 12`. -/
def sampleItem : Item :=
  { URL := { Path := "/a".toList, RawQuery := [] },
    RequestHeader := [("Content-Length".toList, ["12".toList])],
    ResponseHeader := [("Content-Length".toList, ["345".toList])],
    RemoteAddr := "1.2.3.4:55".toList, Method := "GET".toList, Proto := "HTTP/1.1".toList,
    ReceivedAt := 100, FirstByteTime := 0, Latency := 1999999, BytesSent := 0,
    StatusCode := 404 }

end accesslog

namespace io

/-- The operating system `sampleOs`, except that opening the file fails. -/
def sampleOsOpenFails (now : Time) : Os :=
  { sampleOs now 0 0 with OpenFile := Except.error "open app.log: permission denied".toList }

/-- A library whose `Format` writes the date of the time as `YYYYMMDD`,
whatever the layout. -/
def sampleDateLib : Lib := { Dir := fun _ => ['.'], Format := fun t _ => t.Format20060102 }

/-- A pattern policy with layout `20060102` that last saw 2024-02-29. -/
def samplePatternManager : timePatternRollingManager :=
  { fileName := "app".toList, fileExt := ".log".toList, pattern := "20060102".toList,
    timestamp := "20240229".toList }

/-- The daily policy of `sampleWriter`: boundary at midnight of 2024-03-01. -/
def sampleDailyManager : dailyRollingManager :=
  { fileName := "app".toList, fileExt := ".log".toList,
    rollingPoint := (sampleDay + 1) * nanosPerDay }

/-- The writer `sampleWriter` with an empty file. -/
def sampleEmptyWriter : RollingFileWriter := { sampleWriter with size := 0 }

/-- A time on 2024-03-02, five nanoseconds after midnight. -/
def sampleNow : Time := (sampleDay + 2) * nanosPerDay + 5

end io

namespace accesslog

/-- The item `sampleItem` answered after 1,999,999 ns, its first byte 2,999,999 ns
after it was received, with 345 bytes sent. -/
def sampleItemServed : Item :=
  { sampleItem with FirstByteTime := 3000099, Latency := 1999999, BytesSent := 345 }

/-- The item `sampleItem` sent by an IPv6 client. -/
def sampleItemIPv6 : Item :=
  { sampleItem with RemoteAddr := "[2001:db8::1]:8080".toList }

end accesslog

namespace io

/-- The method `Close`: the open file is closed under the exclusive lock and
the error of `(*os.File).Close` is returned; no field of the writer changes. -/
def RollingFileWriter.Close (os : Os) (r : RollingFileWriter) :
    Option Error × RollingFileWriter :=
  (closeFile os r.file,
   { r with calls := r.calls ++ [FsCall.Close r.file (closeFile os r.file)] })

/-- An operation on the writer other than the public `Roll`: a write request
or `Close`, each with what the environment answers during it. -/
inductive Operation where
  | write (c : WriteCall)
  | close (os : Os)

/-- The writer after one operation. -/
def RollingFileWriter.applyOp (lib : Lib) (r : RollingFileWriter) : Operation → RollingFileWriter
  | Operation.write c => (r.perform lib c).2
  | Operation.close os => (r.Close os).2

/-- The writer after a sequence of operations, carried out in order. -/
def RollingFileWriter.applyAll (lib : Lib) (r : RollingFileWriter) (ops : List Operation) :
    RollingFileWriter :=
  ops.foldl (RollingFileWriter.applyOp lib) r

/-- Whether an operation on the writer `r` runs `roll` from `checkRolling`: it
is a write request, and the policy answers "roll due". -/
def RollingFileWriter.runsRoll (lib : Lib) (r : RollingFileWriter) : Operation → Bool
  | Operation.write c => (r.rmg.ShouldRoll lib c.os.Now r).1.1
  | Operation.close _ => false

/-- The number of operations of a sequence that run `roll` from
`checkRolling`, each looked at on the writer as the earlier ones left it. -/
def RollingFileWriter.rollsRun (lib : Lib) : RollingFileWriter → List Operation → Int
  | _, [] => 0
  | r, op :: ops =>
    (if r.runsRoll lib op then 1 else 0)
      + RollingFileWriter.rollsRun lib (r.applyOp lib op) ops

/-- What a caller of `checkRolling` holds when it has asked the policy and has
not yet taken the exclusive lock: the version it read, whether a roll is due
and the target name. -/
structure Asked where
  ver : Int
  shouldRoll : Bool
  targetName : List Char
  deriving DecidableEq, Repr

/-- The part of `checkRolling` that runs before `rwMutex.Lock()`: the version
is read and the policy is asked, which may move the policy's boundary. -/
def RollingFileWriter.askPolicy (lib : Lib) (os : Os) (r : RollingFileWriter) :
    Asked × RollingFileWriter :=
  ({ ver := r.rv, shouldRoll := (r.rmg.ShouldRoll lib os.Now r).1.1,
     targetName := (r.rmg.ShouldRoll lib os.Now r).1.2 },
   { r with rmg := (r.rmg.ShouldRoll lib os.Now r).2 })

/-- The rest of `checkRolling`, on the writer as it is when the caller goes
on: with a roll due the part under the exclusive lock, else nothing. Other
callers may have run between `askPolicy` and this part. -/
def RollingFileWriter.afterAsking (lib : Lib) (os : Os) (a : Asked) (r : RollingFileWriter) :
    RollingFileWriter :=
  if a.shouldRoll then r.checkRollingLocked lib os a.ver a.targetName else r

/-- The part of `Write` that follows `checkRolling`, under `rwMutex.RLock()`. -/
def RollingFileWriter.writeUnderRLock (os : Os) (b : List UInt8) (r : RollingFileWriter) :
    (Int × Option Error) × RollingFileWriter :=
  (writeFile os b r.file,
   { r with size := r.size + (writeFile os b r.file).1,
            calls := r.calls ++ [FsCall.Write r.file b] })

/-- The part of `WriteString` that follows `checkRolling`, under
`rwMutex.RLock()`. -/
def RollingFileWriter.writeStringUnderRLock (os : Os) (s : List Char)
    (r : RollingFileWriter) : (Int × Option Error) × RollingFileWriter :=
  (writeStringFile os s r.file,
   { r with size := r.size + (writeStringFile os s r.file).1,
            calls := r.calls ++ [FsCall.WriteString r.file s] })

/-- A write request during which a roll is due and closing the file fails, a
write request a moment later during which nothing is due, and `Close`. -/
def sampleOperations : List Operation :=
  [ Operation.write { os := sampleOsCloseFails sampleNow, payload := Payload.bytes [1, 2, 3] },
    Operation.write { os := sampleOs (sampleNow + 7) 10 0, payload := Payload.text ['o', 'k'] },
    Operation.close (sampleOs (sampleNow + 9) 10 0) ]

end io

/-! # Properties -/

/-! ## The response observers -/

section
open accesslog

theorem accesslog_size_Write (w : responseWriter) (now : Time) (reply : Int × Option Error)
    (data : List UInt8) : (w.Write now reply data).2.size = w.size + reply.1 := by
  unfold responseWriter.Write responseWriter.WriteHeader
  by_cases h : w.fbt.IsZero = true
  · simp only [h, if_true]
    split <;> simp
  · simp [h]

theorem accesslog_size_writeAll (calls : List BodyWrite) (w : responseWriter) :
    (w.writeAll calls).size = w.size + bytesReturned calls := by
  induction calls generalizing w with
  | nil => simp [responseWriter.writeAll, bytesReturned]
  | cons c cs ih =>
    have h := ih (w.Write c.now c.reply c.data).2
    simp only [responseWriter.writeAll, List.foldl_cons] at h ⊢
    rw [h, accesslog_size_Write]
    simp [bytesReturned]
    ring

/-- On an observer created by `NewResponseWriter`, `Size()` after a sequence of
body writes that returned `n` bytes in total is `n - 1` when `n` is not zero:
the counter starts at `noWritten = -1` and `Write` adds to it as it stands. -/
theorem accesslog_Size_after_writes (wrapped : List Forwarded) (calls : List BodyWrite) :
    ((NewResponseWriter wrapped).writeAll calls).Size
      = if bytesReturned calls = 0 then 0 else bytesReturned calls - 1 := by
  unfold responseWriter.Size
  rw [accesslog_size_writeAll]
  simp only [NewResponseWriter, responseWriter.reset, noWritten]
  by_cases h : bytesReturned calls = 0
  · simp [h]
  · have h1 : ¬ (-1 + bytesReturned calls = -1) := by omega
    simp only [h, h1, if_false]
    ring

theorem accesslog_fbt_WriteHeader_of_set (w : responseWriter) (now : Time) (code : Int)
    (h : w.fbt ≠ 0) : (w.WriteHeader now code).fbt = w.fbt := by
  unfold responseWriter.WriteHeader
  have hz : w.fbt.IsZero = false := by simp [Time.IsZero, h]
  split <;> simp [hz]

theorem accesslog_fbt_step_of_set (w : responseWriter) (c : Call) (h : w.fbt ≠ 0) :
    (w.step c).fbt = w.fbt := by
  cases c with
  | WriteHeader now code => exact accesslog_fbt_WriteHeader_of_set w now code h
  | Write now reply data =>
    have hz : w.fbt.IsZero = false := by simp [Time.IsZero, h]
    simp [responseWriter.step, responseWriter.Write, hz]

theorem accesslog_fbt_steps_of_set (calls : List Call) (w : responseWriter) (h : w.fbt ≠ 0) :
    (calls.foldl responseWriter.step w).fbt = w.fbt := by
  induction calls generalizing w with
  | nil => rfl
  | cons c cs ih =>
    have h1 := accesslog_fbt_step_of_set w c h
    rw [List.foldl_cons, ih (w.step c) (by rw [h1]; exact h), h1]

end

section
open gin

theorem gin_fbt_WriteHeaderNow_of_set (rw : ResponseWriter) (now : Time)
    (h : rw.fbt ≠ 0) : (rw.WriteHeaderNow now).fbt = rw.fbt := by
  have hz : rw.fbt.IsZero = false := by simp [Time.IsZero, h]
  simp [ResponseWriter.WriteHeaderNow, hz]

theorem gin_fbt_step_of_set (rw : ResponseWriter) (c : Call) (h : rw.fbt ≠ 0) :
    (rw.step c).fbt = rw.fbt := by
  cases c <;>
    simp [ResponseWriter.step, ResponseWriter.Write, ResponseWriter.WriteString,
      gin_fbt_WriteHeaderNow_of_set rw _ h]

theorem gin_fbt_steps_of_set (calls : List Call) (rw : ResponseWriter)
    (h : rw.fbt ≠ 0) : (calls.foldl ResponseWriter.step rw).fbt = rw.fbt := by
  induction calls generalizing rw with
  | nil => rfl
  | cons c cs ih =>
    have h1 := gin_fbt_step_of_set rw c h
    rw [List.foldl_cons, ih (rw.step c) (by rw [h1]; exact h), h1]

end

/-- C1, evaluated on the code: an observer created by `NewResponseWriter` whose
only body write returned 5 bytes reports `Size() = 4`, and after two writes of
3 and 4 bytes it reports 6; the total written is 5 and 7. -/
theorem C1_Size_is_one_short :
    ((accesslog.NewResponseWriter []).Write 7 (5, none) [1, 2, 3, 4, 5]).2.Size = 4
    ∧ ((accesslog.NewResponseWriter []).writeAll
        [⟨7, (3, none), [1, 2, 3]⟩, ⟨8, (4, none), [4, 5, 6, 7]⟩]).Size = 6 := by
  decide

/-- C2, evaluated on the code: on an observer created by `NewResponseWriter`,
a first `Write`, and likewise a first `WriteHeader(200)`, leaves
`FirstByteTime()` at the zero time whatever the clock reads, because the
recorded status already is 200 and `WriteHeader` returns before the stamp. -/
theorem C2_first_Write_leaves_FirstByteTime_zero (wrapped : List accesslog.Forwarded)
    (now : Time) (reply : Int × Option Error) (data : List UInt8) :
    ((accesslog.NewResponseWriter wrapped).Write now reply data).2.FirstByteTime = 0
    ∧ ((accesslog.NewResponseWriter wrapped).WriteHeader now 200).FirstByteTime = 0 := by
  simp [accesslog.NewResponseWriter, accesslog.responseWriter.reset,
    accesslog.responseWriter.Write, accesslog.responseWriter.WriteHeader,
    accesslog.responseWriter.FirstByteTime, accesslog.defaultStatus, accesslog.StatusOK,
    Time.IsZero]

/-- C8 as stated fails: after `WriteHeader(404)` has stamped the first-byte
time, `WriteHeader(500)` is forwarded, and the `WriteHeader(500)` that
immediately follows it is forwarded again; the status stays 404. -/
theorem C8_repeated_code_forwarded_again :
    ((((accesslog.NewResponseWriter []).WriteHeader 5 404).WriteHeader 6 500).WriteHeader 7
        500).ResponseWriter
      = [accesslog.Forwarded.WriteHeader 404, accesslog.Forwarded.WriteHeader 500,
         accesslog.Forwarded.WriteHeader 500]
    ∧ ((((accesslog.NewResponseWriter []).WriteHeader 5 404).WriteHeader 6 500).WriteHeader 7
        500).Status = 404 := by
  decide

/-- C8, amended: a `WriteHeader(c)` that immediately follows a `WriteHeader(c)`
changes neither size, status nor first-byte time; it is forwarded to the
wrapped writer once more exactly when the first-byte time was already stamped
before the two calls, `c > 0`, and `c` differs from the recorded status, and
it is not forwarded otherwise. -/
theorem C8_repeated_WriteHeader (w : accesslog.responseWriter) (now1 now2 : Time) (c : Int) :
    ((w.WriteHeader now1 c).WriteHeader now2 c).size = (w.WriteHeader now1 c).size
    ∧ ((w.WriteHeader now1 c).WriteHeader now2 c).status = (w.WriteHeader now1 c).status
    ∧ ((w.WriteHeader now1 c).WriteHeader now2 c).fbt = (w.WriteHeader now1 c).fbt
    ∧ ((w.WriteHeader now1 c).WriteHeader now2 c).ResponseWriter
        = (w.WriteHeader now1 c).ResponseWriter
            ++ (if w.fbt ≠ 0 ∧ c > 0 ∧ w.status ≠ c then [accesslog.Forwarded.WriteHeader c]
                else []) := by
  unfold accesslog.responseWriter.WriteHeader
  by_cases hc : c > 0 ∧ w.status ≠ c
  · by_cases hz : w.fbt = 0
    · simp [hc, hz, Time.IsZero]
    · simp [hc, hz, Time.IsZero]
  · have h2 : ¬ (w.fbt ≠ 0 ∧ c > 0 ∧ w.status ≠ c) := fun h => hc h.2
    rw [if_neg hc, if_neg hc, if_neg h2]
    simp

theorem accesslog_Write_fresh (w : accesslog.responseWriter) (now : Time)
    (reply : Int × Option Error) (data : List UInt8) (hs : w.status = 200) (hz : w.fbt = 0) :
    (w.Write now reply data).2.status = 200 ∧ (w.Write now reply data).2.fbt = 0 := by
  simp [accesslog.responseWriter.Write, accesslog.responseWriter.WriteHeader,
    accesslog.StatusOK, Time.IsZero, hs, hz]

theorem accesslog_writeAll_fresh (calls : List accesslog.BodyWrite)
    (w : accesslog.responseWriter) (hs : w.status = 200) (hz : w.fbt = 0) :
    (w.writeAll calls).fbt = 0 := by
  induction calls generalizing w with
  | nil => exact hz
  | cons c cs ih =>
    have h := accesslog_Write_fresh w c.now c.reply c.data hs hz
    simpa [accesslog.responseWriter.writeAll] using
      ih (w.Write c.now c.reply c.data).2 h.1 h.2

theorem accesslog_fbt_WriteHeader_stamps (w : accesslog.responseWriter) (t : Time) (c : Int)
    (hz : w.fbt = 0) (hc : c > 0) (hs : w.status ≠ c) : (w.WriteHeader t c).fbt = t := by
  simp [accesslog.responseWriter.WriteHeader, hz, Time.IsZero, hc, hs]

theorem accesslog_fbt_Write_stamps (w : accesslog.responseWriter) (t : Time)
    (reply : Int × Option Error) (data : List UInt8) (hz : w.fbt = 0)
    (hs : w.status ≠ 200) : (w.Write t reply data).2.fbt = t := by
  simp [accesslog.responseWriter.Write, accesslog.responseWriter.WriteHeader,
    accesslog.StatusOK, hz, Time.IsZero, hs]

theorem gin_fbt_WriteHeaderNow_stamps (rw : gin.ResponseWriter) (t : Time) (hz : rw.fbt = 0) :
    (rw.WriteHeaderNow t).fbt = t := by
  simp [gin.ResponseWriter.WriteHeaderNow, hz, Time.IsZero]

/-- C9, evaluated on the code: on an observer created by `NewResponseWriter`
of package `accesslog`, two `Write` calls in a row, two `WriteHeader(200)`
calls in a row, and any sequence of `Write` calls leave `FirstByteTime()` at
the zero time whatever the clock reads: the first-write hook that `Write`
invokes is `WriteHeader(200)`, which returns before the stamp because the
recorded status already is 200, so the timestamp of the first call is not
recorded. The rest of the claim holds on the code. For both observers, once
`FirstByteTime()` is not the zero time no sequence of later `WriteHeader`,
`WriteHeaderNow`, `Write` or `WriteString` calls changes it. On the observer
of package `gin` without a stamp, a `WriteHeaderNow`, `Write` or `WriteString`
at a clock reading `t1` other than the zero time records `t1`, and so does
every sequence of calls that follows. On the observer of package `accesslog`
without a stamp the same holds for `WriteHeader(c)` with `c > 0` other than
the recorded status, and for `Write` when the recorded status is not 200. -/
theorem C9_first_write_hook_twice :
    (∀ (wrapped : List accesslog.Forwarded) (t1 t2 : Time) (reply1 reply2 : Int × Option Error)
        (data1 data2 : List UInt8),
        (((accesslog.NewResponseWriter wrapped).Write t1 reply1 data1).2.Write t2 reply2
          data2).2.FirstByteTime = 0)
    ∧ (∀ (wrapped : List accesslog.Forwarded) (t1 t2 : Time),
        (((accesslog.NewResponseWriter wrapped).WriteHeader t1 200).WriteHeader t2
          200).FirstByteTime = 0)
    ∧ (∀ (wrapped : List accesslog.Forwarded) (calls : List accesslog.BodyWrite),
        ((accesslog.NewResponseWriter wrapped).writeAll calls).FirstByteTime = 0)
    ∧ (∀ (w : accesslog.responseWriter) (calls : List accesslog.Call),
        w.FirstByteTime ≠ 0 →
          (calls.foldl accesslog.responseWriter.step w).FirstByteTime = w.FirstByteTime)
    ∧ (∀ (rw : gin.ResponseWriter) (calls : List gin.Call),
        rw.FirstByteTime ≠ 0 →
          (calls.foldl gin.ResponseWriter.step rw).FirstByteTime = rw.FirstByteTime)
    ∧ (∀ (rw : gin.ResponseWriter) (t1 : Time) (reply : Int × Option Error)
        (data : List UInt8) (s : List Char) (calls : List gin.Call),
        rw.FirstByteTime = 0 → t1 ≠ 0 →
          (calls.foldl gin.ResponseWriter.step (rw.WriteHeaderNow t1)).FirstByteTime = t1
          ∧ (calls.foldl gin.ResponseWriter.step (rw.Write t1 reply data).2).FirstByteTime = t1
          ∧ (calls.foldl gin.ResponseWriter.step
              (rw.WriteString t1 reply s).2).FirstByteTime = t1)
    ∧ (∀ (w : accesslog.responseWriter) (t1 : Time) (c : Int)
        (calls : List accesslog.Call),
        w.FirstByteTime = 0 → t1 ≠ 0 → c > 0 → w.status ≠ c →
          (calls.foldl accesslog.responseWriter.step (w.WriteHeader t1 c)).FirstByteTime = t1)
    ∧ (∀ (w : accesslog.responseWriter) (t1 : Time) (reply : Int × Option Error)
        (data : List UInt8) (calls : List accesslog.Call),
        w.FirstByteTime = 0 → t1 ≠ 0 → w.status ≠ 200 →
          (calls.foldl accesslog.responseWriter.step
            (w.Write t1 reply data).2).FirstByteTime = t1) := by
  refine ⟨?_, ?_, ?_, ?_, ?_, ?_, ?_, ?_⟩
  · intro wrapped t1 t2 reply1 reply2 data1 data2
    simp [accesslog.NewResponseWriter, accesslog.responseWriter.reset,
      accesslog.responseWriter.Write, accesslog.responseWriter.WriteHeader,
      accesslog.responseWriter.FirstByteTime, accesslog.defaultStatus, accesslog.StatusOK,
      Time.IsZero]
  · intro wrapped t1 t2
    simp [accesslog.NewResponseWriter, accesslog.responseWriter.reset,
      accesslog.responseWriter.WriteHeader, accesslog.responseWriter.FirstByteTime,
      accesslog.defaultStatus, accesslog.StatusOK, Time.IsZero]
  · intro wrapped calls
    exact accesslog_writeAll_fresh calls (accesslog.NewResponseWriter wrapped) rfl rfl
  · intro w calls h
    exact accesslog_fbt_steps_of_set calls w h
  · intro rw calls h
    exact gin_fbt_steps_of_set calls rw h
  · intro rw t1 reply data s calls h0 h1
    have hz : rw.fbt = 0 := h0
    have hw := gin_fbt_WriteHeaderNow_stamps rw t1 hz
    have h2 : (rw.Write t1 reply data).2.fbt = t1 := hw
    have h3 : (rw.WriteString t1 reply s).2.fbt = t1 := hw
    refine ⟨?_, ?_, ?_⟩
    · exact (gin_fbt_steps_of_set calls _ (by rw [hw]; exact h1)).trans hw
    · exact (gin_fbt_steps_of_set calls _ (by rw [h2]; exact h1)).trans h2
    · exact (gin_fbt_steps_of_set calls _ (by rw [h3]; exact h1)).trans h3
  · intro w t1 c calls h0 h1 hc hs
    have hw := accesslog_fbt_WriteHeader_stamps w t1 c h0 hc hs
    exact (accesslog_fbt_steps_of_set calls _ (by rw [hw]; exact h1)).trans hw
  · intro w t1 reply data calls h0 h1 hs
    have hw := accesslog_fbt_Write_stamps w t1 reply data h0 hs
    exact (accesslog_fbt_steps_of_set calls _ (by rw [hw]; exact h1)).trans hw

/-- C9 at concrete inputs: on a fresh `accesslog` observer, `Write` at clock
reading 5 and `Write` at clock reading 9 leave the first-byte time at the zero
time; on a fresh `gin` observer, `WriteHeaderNow`, `Write` or `WriteString` at
5 followed by `WriteHeaderNow` at 9 records 5; on a fresh `accesslog`
observer, `WriteHeader(404)` at 5 and again at 9 records 5. -/
theorem C9_first_write_hook_twice_witness :
    (((accesslog.NewResponseWriter []).Write 5 (1, none) [1]).2.Write 9 (1, none)
        [2]).2.FirstByteTime = 0
    ∧ (([gin.Call.WriteHeaderNow 9].foldl gin.ResponseWriter.step
        ((gin.newResponseWriter []).WriteHeaderNow 5)).FirstByteTime = 5
      ∧ ([gin.Call.WriteHeaderNow 9].foldl gin.ResponseWriter.step
        ((gin.newResponseWriter []).Write 5 (1, none) [1]).2).FirstByteTime = 5
      ∧ ([gin.Call.WriteHeaderNow 9].foldl gin.ResponseWriter.step
        ((gin.newResponseWriter []).WriteString 5 (1, none) ['a']).2).FirstByteTime = 5)
    ∧ ([accesslog.Call.WriteHeader 9 404].foldl accesslog.responseWriter.step
        ((accesslog.NewResponseWriter []).WriteHeader 5 404)).FirstByteTime = 5 :=
  ⟨C9_first_write_hook_twice.1 [] 5 9 (1, none) (1, none) [1] [2],
   C9_first_write_hook_twice.2.2.2.2.2.1 (gin.newResponseWriter []) 5 (1, none) [1] ['a']
     [gin.Call.WriteHeaderNow 9] rfl (by decide),
   C9_first_write_hook_twice.2.2.2.2.2.2.1 (accesslog.NewResponseWriter []) 5 404
     [accesslog.Call.WriteHeader 9 404] rfl (by decide) (by decide) (by decide)⟩

/-! ## The rotating writer -/

section
open io

theorem io_rv_openFile (os : Os) (r : RollingFileWriter) :
    (r.openFile os).2.rv = r.rv ∧ (r.openFile os).2.size = r.size
    ∧ (r.openFile os).2.rmg = r.rmg := by
  unfold RollingFileWriter.openFile
  cases os.OpenFile <;> simp

theorem io_rv_roll (lib : Lib) (os : Os) (t : List Char) (r : RollingFileWriter) :
    (r.roll lib os t).2.rv = r.rv := by
  unfold RollingFileWriter.roll RollingFileWriter.openFile
  cases closeFile os r.file <;> cases os.OpenFile <;> simp

theorem io_locked_of_ne (lib : Lib) (os : Os) (ver : Int) (t : List Char)
    (r : RollingFileWriter) (h : ver ≠ r.rv) : r.checkRollingLocked lib os ver t = r := by
  simp [RollingFileWriter.checkRollingLocked, h]

theorem io_rv_locked_of_eq (lib : Lib) (os : Os) (ver : Int) (t : List Char)
    (r : RollingFileWriter) (h : ver = r.rv) :
    (r.checkRollingLocked lib os ver t).rv = r.rv + 1 := by
  simp [RollingFileWriter.checkRollingLocked, h, io_rv_roll]

theorem io_runWaiting_stale (lib : Lib) (v : Int) (ws : List Waiting)
    (r : RollingFileWriter) (hv : ∀ w ∈ ws, w.ver = v) (h : v ≠ r.rv) :
    r.runWaiting lib ws = r := by
  induction ws generalizing r with
  | nil => rfl
  | cons w ws ih =>
    have hw : w.ver ≠ r.rv := by rw [hv w (List.mem_cons_self _ _)]; exact h
    simp only [RollingFileWriter.runWaiting, List.foldl_cons]
    rw [io_locked_of_ne lib w.os w.ver w.targetName r hw]
    exact ih r (fun x hx => hv x (List.mem_cons_of_mem _ hx)) h

theorem io_closeCalls_append (a b : List FsCall) :
    closeCalls (a ++ b) = closeCalls a + closeCalls b := by
  simp [closeCalls, List.filter_append]

theorem io_renameCalls_append (a b : List FsCall) :
    renameCalls (a ++ b) = renameCalls a + renameCalls b := by
  simp [renameCalls, List.filter_append]

theorem io_calls_roll (lib : Lib) (os : Os) (t : List Char) (r : RollingFileWriter) :
    closeCalls (r.roll lib os t).2.calls = closeCalls r.calls + 1
    ∧ renameCalls (r.roll lib os t).2.calls
        = renameCalls r.calls + (if closeFile os r.file = none then 1 else 0) := by
  unfold RollingFileWriter.roll RollingFileWriter.openFile
  cases closeFile os r.file <;> cases os.OpenFile <;>
    simp [io_closeCalls_append, io_renameCalls_append, closeCalls, renameCalls]

theorem io_beginning_of_next_day (t : Time) :
    beginningOfTheDate (t.AddDays 1) = (t.dayNumber + 1) * nanosPerDay := by
  simp only [beginningOfTheDate, Time.AddDays, Time.dayNumber, nanosPerDay]
  unfold Time at *
  omega

theorem io_day_before_boundary (D : Int) :
    Time.Format20060102 (Time.AddDays ((D + 1) * nanosPerDay) (-1)) = yyyymmdd D := by
  have h : Time.dayNumber (Time.AddDays ((D + 1) * nanosPerDay) (-1)) = D := by
    simp only [Time.AddDays, Time.dayNumber, nanosPerDay]
    unfold Time at *
    omega
  simp only [Time.Format20060102, h]

theorem io_daily_Initialize_nonempty (os : Os) (rfw : RollingFileWriter) (fi : FileInfo)
    (d0 : dailyRollingManager) (hinfo : rfw.FileInfo os = Except.ok fi) (hsize : 0 < rfw.Size) :
    d0.Initialize os rfw
      = (none, { fileName := TrimSuffix fi.Name (Ext fi.Name), fileExt := Ext fi.Name,
                 rollingPoint := (fi.ModTime.dayNumber + 1) * nanosPerDay }) := by
  unfold dailyRollingManager.Initialize
  rw [hinfo]
  simp only [gt_iff_lt, hsize, if_true, io_beginning_of_next_day]

/-- C5 as stated fails: a file last modified on 2024-02-29 (day `D`) with 10
bytes, policy asked on 2024-03-02 (day `D + 2`): the archival name carries
`20240229`, the date of day `D`, while the date of day `D + 1` is `20240301`. -/
theorem C5_archive_named_after_day_D :
    Time.dayNumber (sampleDay * nanosPerDay + 7) = sampleDay
    ∧ Time.dayNumber ((sampleDay + 2) * nanosPerDay + 5) = sampleDay + 2
    ∧ (((NewDailyRollingManagerState.Initialize
          (sampleOs ((sampleDay + 2) * nanosPerDay + 5) 10 (sampleDay * nanosPerDay + 7))
          sampleWriter).2.ShouldRoll ((sampleDay + 2) * nanosPerDay + 5) sampleWriter).1
      = (true, "app.20240229.log".toList))
    ∧ yyyymmdd (sampleDay + 1) = "20240301".toList
    ∧ (((NewDailyRollingManagerState.Initialize
          (sampleOs ((sampleDay + 2) * nanosPerDay + 5) 10 (sampleDay * nanosPerDay + 7))
          sampleWriter).2.ShouldRoll ((sampleDay + 2) * nanosPerDay + 5) sampleWriter).1
      ≠ (true, "app".toList ++ ['.'] ++ yyyymmdd (sampleDay + 1) ++ ".log".toList)) := by
  decide

/-- C5, amended: for every day `D`, when the daily policy is initialized on a
file of non-zero size last modified on day `D` and first asked on day `D + 2`,
that call reports a roll whose archival name is `base.YYYYMMDD.ext` with
`YYYYMMDD` the date of day `D` (the boundary, midnight of day `D + 1`, minus
one day), and a second call at the same instant reports no roll, whatever the
size then is. -/
theorem C5_daily_roll_after_two_days (D : Int) (os : Os) (rfw rfw2 : RollingFileWriter)
    (fi : FileInfo) (d0 : dailyRollingManager) (now : Time)
    (hinfo : rfw.FileInfo os = Except.ok fi) (hsize : 0 < rfw.Size)
    (hmod : fi.ModTime.dayNumber = D) (hnow : now.dayNumber = D + 2) :
    (d0.Initialize os rfw).1 = none
    ∧ ((d0.Initialize os rfw).2.ShouldRoll now rfw).1
        = (true, TrimSuffix fi.Name (Ext fi.Name) ++ ['.'] ++ yyyymmdd D ++ Ext fi.Name)
    ∧ (((d0.Initialize os rfw).2.ShouldRoll now rfw).2.ShouldRoll now rfw2).1 = (false, []) := by
  rw [io_daily_Initialize_nonempty os rfw fi d0 hinfo hsize, hmod]
  have hpast : now.Before ((D + 1) * nanosPerDay) = false := by
    simp only [Time.Before, Time.dayNumber, nanosPerDay, decide_eq_false_iff_not] at hnow ⊢
    unfold Time at *
    omega
  have hne : ¬ (rfw.Size = 0) := by
    intro h0
    rw [h0] at hsize
    exact absurd hsize (by decide)
  have hnext : now.Before (beginningOfTheDate (now.AddDays 1)) = true := by
    rw [io_beginning_of_next_day]
    simp only [Time.Before, Time.dayNumber, nanosPerDay, decide_eq_true_eq]
    unfold Time at *
    omega
  refine ⟨rfl, ?_, ?_⟩
  · simp only [dailyRollingManager.ShouldRoll, hpast, hne, if_false, Bool.false_eq_true,
      io_day_before_boundary]
  · simp only [dailyRollingManager.ShouldRoll, hpast, hne, if_false, Bool.false_eq_true, hnext,
      if_true]

/-- C5, amended, at a concrete input: file `app.log` of 10 bytes last modified on
2024-02-29, policy asked on 2024-03-02. -/
theorem C5_daily_roll_after_two_days_witness :
    ((NewDailyRollingManagerState.Initialize
        (sampleOs ((sampleDay + 2) * nanosPerDay + 5) 10 (sampleDay * nanosPerDay + 7))
        sampleWriter).1 = none
    ∧ ((NewDailyRollingManagerState.Initialize
        (sampleOs ((sampleDay + 2) * nanosPerDay + 5) 10 (sampleDay * nanosPerDay + 7))
        sampleWriter).2.ShouldRoll ((sampleDay + 2) * nanosPerDay + 5) sampleWriter).1
        = (true, TrimSuffix "app.log".toList (Ext "app.log".toList) ++ ['.']
            ++ yyyymmdd sampleDay ++ Ext "app.log".toList)
    ∧ (((NewDailyRollingManagerState.Initialize
        (sampleOs ((sampleDay + 2) * nanosPerDay + 5) 10 (sampleDay * nanosPerDay + 7))
        sampleWriter).2.ShouldRoll ((sampleDay + 2) * nanosPerDay + 5) sampleWriter).2.ShouldRoll
          ((sampleDay + 2) * nanosPerDay + 5) sampleWriter).1 = (false, [])) :=
  C5_daily_roll_after_two_days sampleDay
    (sampleOs ((sampleDay + 2) * nanosPerDay + 5) 10 (sampleDay * nanosPerDay + 7))
    sampleWriter sampleWriter
    { Name := "app.log".toList, Size := 10, ModTime := sampleDay * nanosPerDay + 7 }
    NewDailyRollingManagerState ((sampleDay + 2) * nanosPerDay + 5)
    (by rfl) (by decide) (by decide) (by decide)

theorem io_file_roll_of_ok (lib : Lib) (os : Os) (t : List Char) (r : RollingFileWriter)
    (f : File) (hclose : closeFile os r.file = none) (hopen : os.OpenFile = Except.ok f) :
    (r.roll lib os t).2.file = some f ∧ (r.roll lib os t).2.size = 0
    ∧ (r.roll lib os t).1 = none := by
  unfold RollingFileWriter.roll RollingFileWriter.openFile
  simp [hclose, hopen]

theorem io_checkRolling_of_due (lib : Lib) (os : Os) (r : RollingFileWriter)
    (hdue : (r.rmg.ShouldRoll lib os.Now r).1.1 = true) :
    r.checkRolling lib os
      = { ({ r with rmg := (r.rmg.ShouldRoll lib os.Now r).2 } : RollingFileWriter).roll lib os
            (r.rmg.ShouldRoll lib os.Now r).1.2 |>.2 with
          rv := r.rv + 1 } := by
  simp [RollingFileWriter.checkRolling, RollingFileWriter.checkRollingLocked, hdue, io_rv_roll]

theorem io_checkRolling_of_not_due (lib : Lib) (os : Os) (r : RollingFileWriter)
    (hdue : (r.rmg.ShouldRoll lib os.Now r).1.1 = false) :
    r.checkRolling lib os = { r with rmg := (r.rmg.ShouldRoll lib os.Now r).2 } := by
  simp [RollingFileWriter.checkRolling, hdue]

/-- C4 as stated fails: a roll is due, closing and reopening succeed and
`os.Rename` fails; `Write` returns 3 bytes written and a nil error. -/
theorem C4_rename_failure_not_returned :
    (sampleWriter.rmg.ShouldRoll sampleLib ((sampleDay + 2) * nanosPerDay + 5) sampleWriter).1.1
      = true
    ∧ (sampleOsRenameFails ((sampleDay + 2) * nanosPerDay + 5)).Rename
      = some "rename: permission denied".toList
    ∧ (sampleWriter.Write sampleLib (sampleOsRenameFails ((sampleDay + 2) * nanosPerDay + 5))
        [1, 2, 3]).1 = (3, none) := by
  decide

/-- C4, amended: for every `Write` call during which a rotation is due and in
which closing the current file and opening the fresh file succeed, `Write`
returns exactly the byte count and error of the write on the freshly opened
file, whatever `os.Rename` answered: a failure to rename the file to its
archival name is not returned to the caller. -/
theorem C4_Write_returns_the_write_on_the_fresh_file (lib : Lib) (os : Os) (b : List UInt8)
    (r : RollingFileWriter) (f : File)
    (hdue : (r.rmg.ShouldRoll lib os.Now r).1.1 = true)
    (hclose : closeFile os r.file = none) (hopen : os.OpenFile = Except.ok f) :
    (r.Write lib os b).1 = os.Write f b := by
  have hfile := (io_file_roll_of_ok lib os (r.rmg.ShouldRoll lib os.Now r).1.2
    { r with rmg := (r.rmg.ShouldRoll lib os.Now r).2 } f hclose hopen).1
  simp only [RollingFileWriter.Write, io_checkRolling_of_due lib os r hdue, hfile, writeFile]

/-- C4, amended, at a concrete input: roll due, `os.Rename` fails. -/
theorem C4_Write_returns_the_write_on_the_fresh_file_witness :
    (sampleWriter.Write sampleLib (sampleOsRenameFails ((sampleDay + 2) * nanosPerDay + 5))
        [1, 2, 3]).1
      = (sampleOsRenameFails ((sampleDay + 2) * nanosPerDay + 5)).Write 2 [1, 2, 3] :=
  C4_Write_returns_the_write_on_the_fresh_file sampleLib
    (sampleOsRenameFails ((sampleDay + 2) * nanosPerDay + 5)) [1, 2, 3] sampleWriter 2
    (by decide) (by rfl) (by rfl)

theorem io_size_perform_of_not_due (lib : Lib) (r : RollingFileWriter) (c : WriteCall)
    (hdue : (r.rmg.ShouldRoll lib c.os.Now r).1.1 = false) :
    (r.perform lib c).2.size = r.size + (r.perform lib c).1.1 := by
  unfold RollingFileWriter.perform
  cases c.payload <;>
    simp [RollingFileWriter.Write, RollingFileWriter.WriteString,
      io_checkRolling_of_not_due lib c.os r hdue]

theorem io_size_performAll (lib : Lib) (calls : List WriteCall) (r : RollingFileWriter)
    (hquiet : r.noRollDue lib calls = true) :
    (r.performAll lib calls).2.size
      = r.size + ((r.performAll lib calls).1.map Prod.fst).sum := by
  induction calls generalizing r with
  | nil => simp [RollingFileWriter.performAll]
  | cons c cs ih =>
    simp only [RollingFileWriter.noRollDue, Bool.and_eq_true, Bool.not_eq_true'] at hquiet
    simp only [RollingFileWriter.performAll, List.map_cons, List.sum_cons]
    rw [ih (r.perform lib c).2 hquiet.2, io_size_perform_of_not_due lib r c hquiet.1]
    ring

theorem io_size_after_open (lib : Lib) (os : Os) (r : RollingFileWriter)
    (hopen : (r.initializeWriter lib os).1 = none)
    (hempty : ∀ f fi, os.Stat f = Except.ok fi → fi.Size = 0) :
    (r.initializeWriter lib os).2.size = 0 := by
  unfold RollingFileWriter.initializeWriter at hopen ⊢
  unfold RollingFileWriter.openFile at hopen ⊢
  by_cases hdir : lib.Dir r.path ≠ ['.']
  · cases hmk : os.MkdirAll with
    | some e => simp [hdir, hmk] at hopen
    | none =>
      cases hof : os.OpenFile with
      | error e => simp [hdir, hmk, hof] at hopen
      | ok f =>
        cases hst : os.Stat f with
        | error e => simp [hdir, hmk, hof, statFile, hst] at hopen
        | ok fi => simp [hdir, hmk, hof, statFile, hst, hempty f fi hst]
  · cases hof : os.OpenFile with
    | error e => simp [hdir, hof] at hopen
    | ok f =>
      cases hst : os.Stat f with
      | error e => simp [hdir, hof, statFile, hst] at hopen
      | ok fi => simp [hdir, hof, statFile, hst, hempty f fi hst]

theorem io_file_after_open (lib : Lib) (os : Os) (r : RollingFileWriter)
    (hopen : (r.initializeWriter lib os).1 = none) :
    ∃ f, os.OpenFile = Except.ok f ∧ (r.initializeWriter lib os).2.file = some f := by
  unfold RollingFileWriter.initializeWriter at hopen ⊢
  unfold RollingFileWriter.openFile at hopen ⊢
  by_cases hdir : lib.Dir r.path ≠ ['.']
  · cases hmk : os.MkdirAll with
    | some e => simp [hdir, hmk] at hopen
    | none =>
      cases hof : os.OpenFile with
      | error e => simp [hdir, hmk, hof] at hopen
      | ok f =>
        cases hst : os.Stat f with
        | error e => simp [hdir, hmk, hof, statFile, hst] at hopen
        | ok fi => exact ⟨f, rfl, by simp [hdir, hmk, statFile, hst]⟩
  · cases hof : os.OpenFile with
    | error e => simp [hdir, hof] at hopen
    | ok f =>
      cases hst : os.Stat f with
      | error e => simp [hdir, hof, statFile, hst] at hopen
      | ok fi => exact ⟨f, rfl, by simp [hdir, statFile, hst]⟩

theorem io_perform_of_not_due (lib : Lib) (r : RollingFileWriter) (c : WriteCall) (f : File)
    (hdue : (r.rmg.ShouldRoll lib c.os.Now r).1.1 = false) (hfile : r.file = some f) :
    (r.perform lib c).1 = c.fileReply f ∧ (r.perform lib c).2.file = some f
    ∧ (r.perform lib c).2.calls = r.calls ++ [c.fsCall f] := by
  unfold RollingFileWriter.perform WriteCall.fileReply WriteCall.fsCall
  cases c.payload <;>
    simp [RollingFileWriter.Write, RollingFileWriter.WriteString,
      io_checkRolling_of_not_due lib c.os r hdue, hfile, writeFile, writeStringFile]

theorem io_calls_performAll (lib : Lib) (f : File) (calls : List WriteCall)
    (r : RollingFileWriter) (hquiet : r.noRollDue lib calls = true) (hfile : r.file = some f) :
    (r.performAll lib calls).2.calls = r.calls ++ calls.map (fun c => c.fsCall f) := by
  induction calls generalizing r with
  | nil => simp [RollingFileWriter.performAll]
  | cons c cs ih =>
    simp only [RollingFileWriter.noRollDue, Bool.and_eq_true, Bool.not_eq_true'] at hquiet
    have h1 := io_perform_of_not_due lib r c f hquiet.1 hfile
    simp only [RollingFileWriter.performAll, List.map_cons]
    rw [ih (r.perform lib c).2 hquiet.2 h1.2.1, h1.2.2]
    simp

theorem io_replies_performAll (lib : Lib) (f : File) (calls : List WriteCall)
    (r : RollingFileWriter) (hquiet : r.noRollDue lib calls = true) (hfile : r.file = some f) :
    (r.performAll lib calls).1 = calls.map (fun c => c.fileReply f) := by
  induction calls generalizing r with
  | nil => simp [RollingFileWriter.performAll]
  | cons c cs ih =>
    simp only [RollingFileWriter.noRollDue, Bool.and_eq_true, Bool.not_eq_true'] at hquiet
    have h1 := io_perform_of_not_due lib r c f hquiet.1 hfile
    simp only [RollingFileWriter.performAll, List.map_cons]
    rw [ih (r.perform lib c).2 hquiet.2 h1.2.1, h1.1]

/-- C6: for every writer that `NewRollingFileWriter` opened without error on a
new or empty file (`Stat` reports size 0) and every sequence of `Write` and
`WriteString` calls during which no roll is due: each call hands its payload
to the opened file in one `Write` or `WriteString`, and nothing else is asked
of the file system; each call returns exactly the `(n, err)` that this write
answered; and `Size()` afterwards is the sum of the byte counts `n` of those
writes, which is the sum of the counts the calls returned, and the sum of the
payload lengths when every write took its whole payload. -/
theorem C6_size_is_the_sum_of_the_writes (lib : Lib) (os : Os) (filePath : List Char)
    (rmg : RollingManager) (calls : List WriteCall)
    (hopen : (NewRollingFileWriter lib os filePath rmg).2 = none)
    (hempty : ∀ f fi, os.Stat f = Except.ok fi → fi.Size = 0)
    (hquiet : (NewRollingFileWriter lib os filePath rmg).1.noRollDue lib calls = true) :
    ((NewRollingFileWriter lib os filePath rmg).1.performAll lib calls).2.Size
      = ((((NewRollingFileWriter lib os filePath rmg).1.performAll lib calls).1).map
          Prod.fst).sum
    ∧ ∃ f, os.OpenFile = Except.ok f
      ∧ ((NewRollingFileWriter lib os filePath rmg).1.performAll lib calls).1
          = calls.map (fun c => c.fileReply f)
      ∧ ((NewRollingFileWriter lib os filePath rmg).1.performAll lib calls).2.calls
          = (NewRollingFileWriter lib os filePath rmg).1.calls
              ++ calls.map (fun c => c.fsCall f)
      ∧ ((NewRollingFileWriter lib os filePath rmg).1.performAll lib calls).2.Size
          = (calls.map (fun c => (c.fileReply f).1)).sum
      ∧ ((∀ c ∈ calls, (c.fileReply f).1 = c.payload.len) →
          ((NewRollingFileWriter lib os filePath rmg).1.performAll lib calls).2.Size
            = (calls.map (fun c => c.payload.len)).sum) := by
  have h0 : (NewRollingFileWriter lib os filePath rmg).1.size = 0 :=
    io_size_after_open lib os _ hopen hempty
  have hsum : ((NewRollingFileWriter lib os filePath rmg).1.performAll lib calls).2.Size
      = ((((NewRollingFileWriter lib os filePath rmg).1.performAll lib calls).1).map
          Prod.fst).sum := by
    rw [RollingFileWriter.Size, io_size_performAll lib calls _ hquiet, h0]
    ring
  obtain ⟨f, hof, hfile⟩ := io_file_after_open lib os _ hopen
  have hrep := io_replies_performAll lib f calls _ hquiet hfile
  have hsize : ((NewRollingFileWriter lib os filePath rmg).1.performAll lib calls).2.Size
      = (calls.map (fun c => (c.fileReply f).1)).sum := by
    rw [hsum, hrep, List.map_map]
    rfl
  refine ⟨hsum, f, hof, hrep, io_calls_performAll lib f calls _ hquiet hfile, hsize, ?_⟩
  intro hfull
  rw [hsize]
  exact congrArg List.sum (List.map_congr_left hfull)

/-- C6 at a concrete input: `app.log` opened empty under the daily policy, then
`Write` of three bytes and `WriteString` of two characters on the same day, each
taking its whole payload: the calls return 3 and 2, and `Size()` is 5. -/
theorem C6_size_is_the_sum_of_the_writes_witness :
    ((NewRollingFileWriter sampleLib (sampleOs (738944 * nanosPerDay + 50) 0 0)
        "app.log".toList NewDailyRollingManager).1.performAll sampleLib sampleCalls).2.Size = 5
    ∧ ((NewRollingFileWriter sampleLib (sampleOs (738944 * nanosPerDay + 50) 0 0)
        "app.log".toList NewDailyRollingManager).1.performAll sampleLib sampleCalls).1
      = [(3, none), (2, none)]
    ∧ sampleCalls.map (fun c => c.payload.len) = [3, 2] :=
  ⟨(C6_size_is_the_sum_of_the_writes sampleLib (sampleOs (738944 * nanosPerDay + 50) 0 0)
      "app.log".toList NewDailyRollingManager sampleCalls (by decide)
      (by
        intro f fi h
        simp only [sampleOs, Except.ok.injEq] at h
        rw [← h])
      (by decide)).1.trans (by decide),
   by decide, by decide⟩

/-- C7 as stated fails: two callers wait for the lock having both observed
"roll due" at version 0, and closing the file fails for the first: the version
is incremented once, yet the file is never renamed. -/
theorem C7_version_incremented_without_rename :
    (sampleWriter.runWaiting sampleLib sampleWaiting).rv = sampleWriter.rv + 1
    ∧ renameCalls (sampleWriter.runWaiting sampleLib sampleWaiting).calls = 0 := by
  decide

/-- C7, amended: when one or more callers (in particular `N ≥ 2`) have all read
the same rotation version and observed "roll due" before any of them takes the
exclusive lock, then in whatever order they take it exactly one of them, the
first, runs `roll`: the version is incremented exactly once, the file is closed
exactly once, and `os.Rename` is called at most once for that boundary, exactly
once when closing the current file succeeds and not at all when it fails. -/
theorem C7_one_roll_for_all_waiting (lib : Lib) (r : RollingFileWriter) (w : Waiting)
    (ws : List Waiting) (hver : ∀ x ∈ w :: ws, x.ver = r.rv) :
    r.runWaiting lib (w :: ws) = r.checkRollingLocked lib w.os w.ver w.targetName
    ∧ (r.runWaiting lib (w :: ws)).rv = r.rv + 1
    ∧ closeCalls (r.runWaiting lib (w :: ws)).calls = closeCalls r.calls + 1
    ∧ renameCalls (r.runWaiting lib (w :: ws)).calls
        = renameCalls r.calls + (if closeFile w.os r.file = none then 1 else 0) := by
  have hw : w.ver = r.rv := hver w (List.mem_cons_self _ _)
  have hrv := io_rv_locked_of_eq lib w.os w.ver w.targetName r hw
  have hrun : r.runWaiting lib (w :: ws) = r.checkRollingLocked lib w.os w.ver w.targetName := by
    have h := io_runWaiting_stale lib r.rv ws (r.checkRollingLocked lib w.os w.ver w.targetName)
      (fun x hx => hver x (List.mem_cons_of_mem _ hx)) (by rw [hrv]; omega)
    simpa [RollingFileWriter.runWaiting] using h
  refine ⟨hrun, by rw [hrun, hrv], ?_, ?_⟩
  · rw [hrun]
    simp only [RollingFileWriter.checkRollingLocked, hw, if_true]
    exact (io_calls_roll lib w.os w.targetName r).1
  · rw [hrun]
    simp only [RollingFileWriter.checkRollingLocked, hw, if_true]
    exact (io_calls_roll lib w.os w.targetName r).2

/-- C7, amended, at a concrete input: two callers at version 0, the close of the
first fails. -/
theorem C7_one_roll_for_all_waiting_witness :
    sampleWriter.runWaiting sampleLib sampleWaiting
      = sampleWriter.checkRollingLocked sampleLib (sampleOsCloseFails (738946 * nanosPerDay + 5))
          0 "app.20240229.log".toList
    ∧ (sampleWriter.runWaiting sampleLib sampleWaiting).rv = sampleWriter.rv + 1
    ∧ closeCalls (sampleWriter.runWaiting sampleLib sampleWaiting).calls
        = closeCalls sampleWriter.calls + 1
    ∧ renameCalls (sampleWriter.runWaiting sampleLib sampleWaiting).calls
        = renameCalls sampleWriter.calls
          + (if closeFile (sampleOsCloseFails (738946 * nanosPerDay + 5)) sampleWriter.file = none
              then 1 else 0) :=
  C7_one_roll_for_all_waiting sampleLib sampleWriter
    { ver := 0, targetName := "app.20240229.log".toList,
      os := sampleOsCloseFails (738946 * nanosPerDay + 5) }
    [ { ver := 0, targetName := "app.20240229.log".toList,
        os := sampleOs (738946 * nanosPerDay + 6) 10 0 } ]
    (by
      intro x hx
      simp only [List.mem_cons, List.mem_singleton, List.not_mem_nil, or_false] at hx
      rcases hx with h | h <;> rw [h] <;> rfl)

end

/-! ## The pattern compiler -/

section
open accesslog

theorem accesslog_scan_append (q : Scan) (a b : List Char) :
    scan q (a ++ b) = scan (scan q a) b := by
  simp [scan, List.foldl_append]

theorem accesslog_scan_cons (q : Scan) (c : Char) (s : List Char) :
    scan q (c :: s) = scan (scanStep q c) s := rfl

theorem accesslog_resetLoop_isSome (n : Nat) :
    ∀ (s : List Char), s.length ≤ n → ∀ cur : List Char,
      ((resetLoop false cur s).isSome = true ↔ scan Scan.text s ≠ Scan.tag)
      ∧ ((resetLoop true cur s).isSome = true ↔ scan Scan.tag s ≠ Scan.tag) := by
  induction n with
  | zero =>
    intro s hs cur
    have : s = [] := List.length_eq_zero.mp (Nat.le_zero.mp hs)
    subst this
    simp [resetLoop, scan]
  | succ n ih =>
    intro s hs cur
    cases s with
    | nil => simp [resetLoop, scan]
    | cons c r =>
      have hr : r.length ≤ n := by simpa using hs
      constructor
      · by_cases hc : c = '$'
        · subst hc
          cases r with
          | nil => simp [resetLoop, scan, scanStep]
          | cons d r2 =>
            have hr2 : r2.length ≤ n := by
              simp only [List.length_cons] at hr
              omega
            by_cases hd : d = '{'
            · subst hd
              simp only [resetLoop, Option.isSome_map', accesslog_scan_cons, scanStep]
              simpa using (ih r2 hr2 []).2
            · have h1 := (ih (d :: r2) hr ('$' :: cur)).1
              rw [accesslog_scan_cons] at h1
              rw [accesslog_scan_cons, accesslog_scan_cons]
              have hstep : scanStep (scanStep Scan.text '$') d = scanStep Scan.text d := by
                simp [scanStep, hd]
              rw [hstep]
              rw [← h1]
              rw [resetLoop]
              intro r3 _ hr3
              exact hd (by simpa using congrArg List.head? hr3)
        · have h1 := (ih r hr (c :: cur)).1
          rw [accesslog_scan_cons]
          have hstep : scanStep Scan.text c = Scan.text := by simp [scanStep, hc]
          rw [hstep, ← h1, resetLoop]
          intro r3 hr3 _
          exact hc hr3
      · by_cases hc : c = '}'
        · subst hc
          simp only [resetLoop, Option.isSome_map', accesslog_scan_cons, scanStep]
          simpa using (ih r hr []).1
        · have h1 := (ih r hr (c :: cur)).2
          rw [accesslog_scan_cons]
          have hstep : scanStep Scan.tag c = Scan.tag := by simp [scanStep, hc]
          rw [hstep, ← h1, resetLoop]
          exact hc

theorem accesslog_NewTemplate_ok (s : List Char) (h : scan Scan.text s ≠ Scan.tag) :
    ∃ t, NewTemplate s = Except.ok t := by
  unfold NewTemplate
  by_cases hs : hasStartTag s = true
  · have hsome := ((accesslog_resetLoop_isSome s.length s (Nat.le_refl _) []).1).2 h
    obtain ⟨r, hr⟩ := Option.isSome_iff_exists.mp hsome
    simp [hs, hr]
  · simp [hs]

theorem accesslog_scan_brace (q : Scan) (a : List Char) :
    scan q (a ++ ['}']) = Scan.text := by
  rw [accesslog_scan_append]
  cases h : scan q a <;> simp [scan, scanStep]

theorem accesslog_scan_wholeMatch (x : Char) (hx : x ≠ '$') (q : Scan) (name : List Char) :
    scan q (wholeMatch x name) = Scan.text := by
  have h : wholeMatch x name = ('%' :: '{' :: name ++ ['}']) ++ [x] := by
    simp [wholeMatch]
  rw [h, accesslog_scan_append, accesslog_scan_brace]
  simp [scan, scanStep, hx]

theorem accesslog_matchDirective_some (x : Char) (s name : List Char)
    (h : matchDirective x s = some name) :
    ∃ rest, s = wholeMatch x name ++ rest := by
  unfold matchDirective at h
  split at h
  · rename_i u
    have hu := List.takeWhile_append_dropWhile (fun c => decide (c ≠ '}')) u
    split at h
    · rename_i y rest hdrop
      split at h
      · rename_i hy
        simp only [Option.some.injEq] at h
        refine ⟨rest, ?_⟩
        rw [hdrop, h, hy.1] at hu
        rw [← hu]
        simp [wholeMatch]
      · exact absurd h (by simp)
    · exact absurd h (by simp)
  · exact absurd h (by simp)

theorem accesslog_scan_replaceAllAux (x : Char) (hx : x ≠ '$') (repl : List Char → List Char)
    (hrepl : ∀ name q, scan q (repl name) = Scan.text) :
    ∀ (s : List Char) (k : Nat) (q : Scan),
      scan q (replaceAllAux x repl k s) = scan q (s.drop k) := by
  intro s
  induction s with
  | nil => intro k q; cases k <;> simp [replaceAllAux]
  | cons c s ih =>
    intro k q
    cases k with
    | succ k => simpa [replaceAllAux] using ih k q
    | zero =>
      rw [replaceAllAux]
      cases hm : matchDirective x (c :: s) with
      | none =>
        simp only [List.drop_zero, accesslog_scan_cons]
        simpa using ih 0 (scanStep q c)
      | some name =>
        obtain ⟨rest, hrest⟩ := accesslog_matchDirective_some x (c :: s) name hm
        have htail : s.drop (name.length + 3) = rest := by
          have h2 : s = ('{' :: (name ++ ['}', x])) ++ rest := by
            simp only [wholeMatch, List.cons_append, List.cons.injEq] at hrest
            simpa using hrest.2
          rw [h2, List.drop_left']
          simp
        simp only [List.drop_zero]
        rw [accesslog_scan_append, hrepl, ih, htail, hrest, accesslog_scan_append,
          accesslog_scan_wholeMatch x hx]

theorem accesslog_expand_ReceivedAt (x : Char) (name : List Char) :
    expandAux (groupText x name) 0 "$\x7bReceivedAt|$2\x7d".toList
      = "$\x7bReceivedAt|".toList ++ name ++ ['}'] := by
  rfl

theorem accesslog_expand_RequestHeader (x : Char) (name : List Char) :
    expandAux (groupText x name) 0 "$\x7bRequestHeader|$2\x7d".toList
      = "$\x7bRequestHeader|".toList ++ name ++ ['}'] := by
  rfl

theorem accesslog_expand_ResponseHeader (x : Char) (name : List Char) :
    expandAux (groupText x name) 0 "$\x7bResponseHeader|$2\x7d".toList
      = "$\x7bResponseHeader|".toList ++ name ++ ['}'] := by
  rfl

theorem accesslog_scan_ReplaceAllString (x : Char) (hx : x ≠ '$') (template pre : List Char)
    (hexp : ∀ name, expandAux (groupText x name) 0 template = pre ++ name ++ ['}'])
    (q : Scan) (s : List Char) :
    scan q (ReplaceAllString x s template) = scan q s := by
  have h := accesslog_scan_replaceAllAux x hx
    (fun name => expandAux (groupText x name) 0 template)
    (fun name q => by
      show scan q (expandAux (groupText x name) 0 template) = Scan.text
      rw [hexp, accesslog_scan_brace]) s 0 q
  simpa [ReplaceAllString] using h

theorem accesslog_ToLower_wholeMatch (x : Char) (name : List Char) :
    ToLower (wholeMatch x name) = wholeMatch x.toLower (ToLower name) := by
  simp [ToLower, wholeMatch]

theorem accesslog_scan_ReplaceAllStringFunc (x : Char) (hx : x ≠ '$') (hl : x.toLower ≠ '$')
    (q : Scan) (s : List Char) :
    scan q (ReplaceAllStringFunc x s ToLower) = scan q s := by
  have h := accesslog_scan_replaceAllAux x hx (fun name => ToLower (wholeMatch x name))
    (fun name q => by
      show scan q (ToLower (wholeMatch x name)) = Scan.text
      rw [accesslog_ToLower_wholeMatch, accesslog_scan_wholeMatch _ hl]) s 0 q
  simpa [ReplaceAllStringFunc] using h

theorem accesslog_scan_directives :
    ∀ p ∈ directives, scan Scan.text p.2 = Scan.text := by
  decide

theorem accesslog_scan_replaceAux (s : List Char) :
    ∀ k : Nat, '$' ∉ s → scan Scan.text (replaceAux directives k s) = Scan.text := by
  induction s with
  | nil => intro k _; cases k <;> rfl
  | cons c s ih =>
    intro k hs
    have hc : c ≠ '$' := fun e => hs (by rw [e]; exact List.mem_cons_self _ _)
    have hs2 : '$' ∉ s := fun e => hs (List.mem_cons_of_mem _ e)
    cases k with
    | succ k => simpa [replaceAux] using ih k hs2
    | zero =>
      rw [replaceAux]
      cases hl : lookupOld directives (c :: s) with
      | none =>
        simp only [accesslog_scan_cons]
        have hstep : scanStep Scan.text c = Scan.text := by simp [scanStep, hc]
        rw [hstep]
        exact ih 0 hs2
      | some p =>
        have hp : p ∈ directives := List.mem_of_find?_eq_some hl
        simp only []
        rw [accesslog_scan_append, accesslog_scan_directives p hp]
        exact ih _ hs2

theorem accesslog_scan_templateText (pattern : List Char) (h : '$' ∉ pattern) :
    scan Scan.text (templateText pattern) = Scan.text := by
  unfold templateText
  simp only []
  rw [accesslog_scan_ReplaceAllString 'o' (by decide) _ _ (accesslog_expand_ResponseHeader 'o'),
    accesslog_scan_ReplaceAllStringFunc 'o' (by decide) (by decide),
    accesslog_scan_ReplaceAllString 'i' (by decide) _ _ (accesslog_expand_RequestHeader 'i'),
    accesslog_scan_ReplaceAllStringFunc 'i' (by decide) (by decide),
    accesslog_scan_ReplaceAllString 't' (by decide) _ _ (accesslog_expand_ReceivedAt 't')]
  exact accesslog_scan_replaceAux pattern 0 h

/-- C3 as stated fails: the pattern `%z` (an unsupported letter) and the pattern
`%{Host i` (an unbalanced brace directive) both compile, to a template that
is the pattern itself as literal text, and `NewLogger` returns a logger. -/
theorem C3_malformed_directives_compile :
    buildTemplate "%z".toList
      = Except.ok { template := "%z".toList, texts := [], tags := [] }
    ∧ buildTemplate "%\x7bHost i".toList
      = Except.ok { template := "%\x7bHost i".toList, texts := [], tags := [] }
    ∧ NewLogger "%z".toList (Except.ok "10.0.0.1".toList)
      = Except.ok { pattern := "%z".toList, localIP := "10.0.0.1".toList,
                    template := { template := "%z".toList, texts := [], tags := [] } } :=
  ⟨rfl, rfl, rfl⟩

theorem accesslog_lookupOld_none (c : Char) (s : List Char) (hc : c ≠ '%') :
    lookupOld directives (c :: s) = none := by
  have h : ('%' == c) = false := by
    simp only [beq_eq_false_iff_ne, ne_eq]
    exact fun e => hc e.symm
  simp [lookupOld, directives, List.isPrefixOf, h]

theorem accesslog_lookupOld_brace (s : List Char) :
    lookupOld directives ('%' :: '{' :: s) = none := by
  simp [lookupOld, directives, List.isPrefixOf]

theorem accesslog_replaceAux_id (s : List Char) :
    ∀ k : Nat, '%' ∉ s → replaceAux directives k s = s.drop k := by
  induction s with
  | nil => intro k _; cases k <;> rfl
  | cons c s ih =>
    intro k hs
    have hc : c ≠ '%' := fun e => hs (by rw [e]; exact List.mem_cons_self _ _)
    have hs2 : '%' ∉ s := fun e => hs (List.mem_cons_of_mem _ e)
    cases k with
    | succ k => simpa [replaceAux] using ih k hs2
    | zero =>
      rw [replaceAux, accesslog_lookupOld_none c s hc]
      simpa using ih 0 hs2

theorem accesslog_matchDirective_none (x c : Char) (s : List Char) (hc : c ≠ '%') :
    matchDirective x (c :: s) = none := by
  unfold matchDirective
  split
  · rename_i u heq
    exact absurd (List.cons.inj heq).1 hc
  · rfl

theorem accesslog_replaceAllAux_id (x : Char) (repl : List Char → List Char) (s : List Char) :
    ∀ k : Nat, '%' ∉ s → replaceAllAux x repl k s = s.drop k := by
  induction s with
  | nil => intro k _; cases k <;> rfl
  | cons c s ih =>
    intro k hs
    have hc : c ≠ '%' := fun e => hs (by rw [e]; exact List.mem_cons_self _ _)
    have hs2 : '%' ∉ s := fun e => hs (List.mem_cons_of_mem _ e)
    cases k with
    | succ k => simpa [replaceAllAux] using ih k hs2
    | zero =>
      rw [replaceAllAux, accesslog_matchDirective_none x c s hc]
      simpa using ih 0 hs2

theorem accesslog_matchDirective_wholeMatch (x y : Char) (h : List Char) (hb : '}' ∉ h) :
    matchDirective x (wholeMatch y h) = if y = x ∧ h ≠ [] then some h else none := by
  have hp : ∀ a ∈ h, (fun c : Char => decide (c ≠ '}')) a = true := by
    intro a ha
    simp only [ne_eq, decide_not, Bool.not_eq_true', decide_eq_false_iff_not]
    exact fun e => hb (e ▸ ha)
  have ht : (h ++ ['}', y]).takeWhile (fun c => decide (c ≠ '}')) = h := by
    rw [List.takeWhile_append_of_pos hp]
    simp
  have hd : (h ++ ['}', y]).dropWhile (fun c => decide (c ≠ '}')) = ['}', y] := by
    rw [List.dropWhile_append_of_pos hp]
    simp
  simp only [wholeMatch, matchDirective, ht, hd]

theorem accesslog_replaceAll_wholeMatch (x y : Char) (repl : List Char → List Char)
    (h : List Char) (hb : '}' ∉ h) (hp : '%' ∉ h) (hy : y ≠ '%') :
    replaceAllAux x repl 0 (wholeMatch y h)
      = if y = x ∧ h ≠ [] then repl h else wholeMatch y h := by
  have htail : '%' ∉ ('{' :: (h ++ ['}', y])) := by
    simp only [List.mem_cons, List.mem_append, List.mem_singleton, List.not_mem_nil, or_false,
      not_or]
    exact ⟨by decide, hp, by decide, fun e => hy e.symm⟩
  have hm := accesslog_matchDirective_wholeMatch x y h hb
  unfold wholeMatch at hm ⊢
  rw [replaceAllAux, hm]
  by_cases hc : y = x ∧ h ≠ []
  · rw [if_pos hc, if_pos hc]
    simp only []
    rw [accesslog_replaceAllAux_id x repl _ _ htail]
    simp
  · simp only [hc, if_false]
    rw [accesslog_replaceAllAux_id x repl _ _ htail]
    simp

theorem accesslog_Replace_wholeMatch (y : Char) (h : List Char) (hp : '%' ∉ h) (hy : y ≠ '%') :
    Replace (wholeMatch y h) = wholeMatch y h := by
  have htail : '%' ∉ ('{' :: (h ++ ['}', y])) := by
    simp only [List.mem_cons, List.mem_append, List.mem_singleton, List.not_mem_nil, or_false,
      not_or]
    exact ⟨by decide, hp, by decide, fun e => hy e.symm⟩
  unfold Replace wholeMatch
  rw [replaceAux, accesslog_lookupOld_brace]
  simp only []
  rw [accesslog_replaceAux_id _ 0 htail]
  simp

theorem accesslog_lower_wholeMatch (x : Char) (hx : x.toLower = x) (h : List Char)
    (hb : '}' ∉ h) (hp : '%' ∉ h) (hy : x ≠ '%') :
    ReplaceAllStringFunc x (wholeMatch x h) ToLower = wholeMatch x (ToLower h) := by
  unfold ReplaceAllStringFunc
  rw [accesslog_replaceAll_wholeMatch x x _ h hb hp hy]
  by_cases hne : h = []
  · subst hne
    simp [ToLower]
  · simp only [true_and, ne_eq, hne, not_false_eq_true, if_true]
    rw [accesslog_ToLower_wholeMatch, hx]

theorem accesslog_other_wholeMatch (x y : Char) (hxy : y ≠ x) (repl : List Char → List Char)
    (h : List Char) (hb : '}' ∉ h) (hp : '%' ∉ h) (hy : y ≠ '%') :
    replaceAllAux x repl 0 (wholeMatch y h) = wholeMatch y h := by
  rw [accesslog_replaceAll_wholeMatch x y repl h hb hp hy]
  simp [hxy]

theorem accesslog_header_name_chars (h : List Char) (hc : ∀ c ∈ h, c.isAlphanum = true ∨ c = '-') :
    '}' ∉ h ∧ '%' ∉ h := by
  constructor
  · intro hm
    rcases hc _ hm with h1 | h1
    · exact absurd h1 (by decide)
    · exact absurd h1 (by decide)
  · intro hm
    rcases hc _ hm with h1 | h1
    · exact absurd h1 (by decide)
    · exact absurd h1 (by decide)

theorem accesslog_templateText_request (h : List Char) (hb : '}' ∉ h) (hp : '%' ∉ h) :
    templateText (wholeMatch 'i' h)
      = ReplaceAllString 'o'
          (ReplaceAllStringFunc 'o'
            (ReplaceAllString 'i' (wholeMatch 'i' (ToLower h))
              "$\x7bRequestHeader|$2\x7d".toList) ToLower)
          "$\x7bResponseHeader|$2\x7d".toList := by
  unfold templateText
  simp only []
  rw [accesslog_Replace_wholeMatch 'i' h hp (by decide)]
  have ht : ReplaceAllString 't' (wholeMatch 'i' h) "$\x7bReceivedAt|$2\x7d".toList
      = wholeMatch 'i' h :=
    accesslog_other_wholeMatch 't' 'i' (by decide) _ h hb hp (by decide)
  rw [ht, accesslog_lower_wholeMatch 'i' (by decide) h hb hp (by decide)]

theorem accesslog_templateText_response (h : List Char) (hb : '}' ∉ h) (hp : '%' ∉ h) :
    templateText (wholeMatch 'o' h)
      = ReplaceAllString 'o' (wholeMatch 'o' (ToLower h))
          "$\x7bResponseHeader|$2\x7d".toList := by
  unfold templateText
  simp only []
  rw [accesslog_Replace_wholeMatch 'o' h hp (by decide)]
  have ht : ReplaceAllString 't' (wholeMatch 'o' h) "$\x7bReceivedAt|$2\x7d".toList
      = wholeMatch 'o' h :=
    accesslog_other_wholeMatch 't' 'o' (by decide) _ h hb hp (by decide)
  have hf : ReplaceAllStringFunc 'i' (wholeMatch 'o' h) ToLower = wholeMatch 'o' h :=
    accesslog_other_wholeMatch 'i' 'o' (by decide) _ h hb hp (by decide)
  have hi : ReplaceAllString 'i' (wholeMatch 'o' h) "$\x7bRequestHeader|$2\x7d".toList
      = wholeMatch 'o' h :=
    accesslog_other_wholeMatch 'i' 'o' (by decide) _ h hb hp (by decide)
  rw [ht, hf, hi, accesslog_lower_wholeMatch 'o' (by decide) h hb hp (by decide)]

theorem accesslog_render_of_templateText (lib : Lib) (p1 p2 : List Char)
    (localIPReply : Except Error (List Char)) (item : Item)
    (h : templateText p1 = templateText p2) :
    render lib p1 localIPReply item = render lib p2 localIPReply item := by
  unfold render NewLogger buildTemplate
  rw [h]
  cases NewTemplate (templateText p2) with
  | error e => rfl
  | ok t =>
    cases localIPReply with
    | error e => rfl
    | ok ip => rfl

/-- C10: for every header name made of letters, digits and hyphens and every
two spellings `h1`, `h2` of it that differ only in letter case, the patterns
`%{h1}i` and `%{h2}i`, and likewise `%{h1}o` and `%{h2}o`,
compile to the same template text and render the same line for every record. -/
theorem C10_header_directive_ignores_case (h1 h2 : List Char)
    (hc1 : ∀ c ∈ h1, c.isAlphanum = true ∨ c = '-')
    (hc2 : ∀ c ∈ h2, c.isAlphanum = true ∨ c = '-')
    (hcase : ToLower h1 = ToLower h2)
    (lib : Lib) (localIPReply : Except Error (List Char)) (item : Item) :
    render lib (wholeMatch 'i' h1) localIPReply item
      = render lib (wholeMatch 'i' h2) localIPReply item
    ∧ render lib (wholeMatch 'o' h1) localIPReply item
      = render lib (wholeMatch 'o' h2) localIPReply item := by
  have n1 := accesslog_header_name_chars h1 hc1
  have n2 := accesslog_header_name_chars h2 hc2
  constructor
  · apply accesslog_render_of_templateText
    rw [accesslog_templateText_request h1 n1.1 n1.2,
      accesslog_templateText_request h2 n2.1 n2.2, hcase]
  · apply accesslog_render_of_templateText
    rw [accesslog_templateText_response h1 n1.1 n1.2,
      accesslog_templateText_response h2 n2.1 n2.2, hcase]

/-- C10 at a concrete input: `%{Content-Length}i` and
`%{content-length}i`, and the same with `o`, on a record whose request
carries `Content-Length: 12`; the line rendered for the request header is `12`. -/
theorem C10_header_directive_ignores_case_witness :
    (render sampleLib (wholeMatch 'i' "Content-Length".toList) (Except.ok "10.0.0.1".toList)
        sampleItem
      = render sampleLib (wholeMatch 'i' "content-length".toList) (Except.ok "10.0.0.1".toList)
        sampleItem
    ∧ render sampleLib (wholeMatch 'o' "Content-Length".toList) (Except.ok "10.0.0.1".toList)
        sampleItem
      = render sampleLib (wholeMatch 'o' "content-length".toList) (Except.ok "10.0.0.1".toList)
        sampleItem)
    ∧ wholeMatch 'i' "Content-Length".toList = "%\x7bContent-Length\x7di".toList
    ∧ render sampleLib (wholeMatch 'i' "Content-Length".toList) (Except.ok "10.0.0.1".toList)
        sampleItem = Except.ok "12\n".toList :=
  ⟨C10_header_directive_ignores_case "Content-Length".toList "content-length".toList
      (by decide) (by decide) (by decide) sampleLib (Except.ok "10.0.0.1".toList) sampleItem,
    rfl, rfl⟩

end

/-! ## The response observer: default status -/

section
open accesslog

theorem accesslog_status_Write (w : responseWriter) (now : Time) (reply : Int × Option Error)
    (data : List UInt8) (h : w.status = StatusOK) :
    (w.Write now reply data).2.status = StatusOK := by
  unfold responseWriter.Write responseWriter.WriteHeader
  by_cases hz : w.fbt.IsZero = true
  · simp [hz, h]
  · simp [hz, h]

theorem accesslog_status_writeAll (calls : List BodyWrite) (w : responseWriter)
    (h : w.status = StatusOK) : (w.writeAll calls).status = StatusOK := by
  induction calls generalizing w with
  | nil => exact h
  | cons c cs ih =>
    have h1 := accesslog_status_Write w c.now c.reply c.data h
    have h2 := ih (w.Write c.now c.reply c.data).2 h1
    simpa [responseWriter.writeAll] using h2

end

/-- C20: on an observer created by `NewResponseWriter` on which `WriteHeader` is
never called, `Status()` is 200 before any body write and after every sequence
of body `Write` calls. -/
theorem C20_default_status_is_200 (wrapped : List accesslog.Forwarded)
    (calls : List accesslog.BodyWrite) :
    (accesslog.NewResponseWriter wrapped).Status = 200
    ∧ ((accesslog.NewResponseWriter wrapped).writeAll calls).Status = 200 := by
  constructor
  · rfl
  · exact accesslog_status_writeAll calls _ rfl

/-! ## The rotation policies -/

section
open io

/-- C14: for the daily policy with boundary `P` and every call time `now`: when
`now` is before `P`, `ShouldRoll` reports no roll and leaves the policy, `P`
included, unchanged; when `now` is at or after `P` and the file size is not
zero, it reports a roll whose target name is `fileName`, a dot, the `YYYYMMDD`
date of `P` minus one day, `fileExt`, and it sets `P` to midnight of the day
after `now`. -/
theorem C14_daily_ShouldRoll (d : dailyRollingManager) (now : Time) (rfw : RollingFileWriter) :
    (now < d.rollingPoint → d.ShouldRoll now rfw = ((false, []), d))
    ∧ (d.rollingPoint ≤ now → rfw.Size ≠ 0 →
        d.ShouldRoll now rfw
          = ((true, d.fileName ++ ['.'] ++ Time.Format20060102 (d.rollingPoint.AddDays (-1))
                ++ d.fileExt),
             { d with rollingPoint := (now.dayNumber + 1) * nanosPerDay })) := by
  constructor
  · intro h
    simp [dailyRollingManager.ShouldRoll, Time.Before, h]
  · intro h hs
    have hb : ¬ (now < d.rollingPoint) := not_lt.mpr h
    simp [dailyRollingManager.ShouldRoll, Time.Before, hb, hs, io_beginning_of_next_day]

/-- C15: for either rotation policy, when the boundary has passed (daily: `now`
is at or after the boundary; pattern: the current time formatted with the
pattern differs from the stored timestamp) while the file size is zero,
`ShouldRoll` returns false with an empty target name and advances the boundary:
to midnight of the day after `now` for the daily policy, to the newly
formatted timestamp for the pattern policy. -/
theorem C15_empty_file_advances_boundary (lib : Lib) (now : Time) (rfw : RollingFileWriter) :
    (∀ d : dailyRollingManager, d.rollingPoint ≤ now → rfw.Size = 0 →
        d.ShouldRoll now rfw
          = ((false, []), { d with rollingPoint := (now.dayNumber + 1) * nanosPerDay }))
    ∧ (∀ t : timePatternRollingManager, lib.Format now t.pattern ≠ t.timestamp →
        rfw.Size = 0 →
        t.ShouldRoll lib now rfw
          = ((false, []), { t with timestamp := lib.Format now t.pattern })) := by
  constructor
  · intro d h hs
    have hb : ¬ (now < d.rollingPoint) := not_lt.mpr h
    simp [dailyRollingManager.ShouldRoll, Time.Before, hb, hs, io_beginning_of_next_day]
  · intro t h hs
    simp [timePatternRollingManager.ShouldRoll, h, hs]

/-- C16: for the pattern policy, `ShouldRoll` reports a roll if and only if the
current time formatted with the pattern differs from the stored timestamp and
the file size is not zero; in that case the target name is `fileName`, a dot,
the old stored timestamp, `fileExt`, and the stored timestamp becomes the newly
formatted one; when the formatted time equals the stored timestamp nothing is
reported and the policy is unchanged. -/
theorem C16_pattern_ShouldRoll (lib : Lib) (now : Time) (rfw : RollingFileWriter)
    (t : timePatternRollingManager) :
    ((t.ShouldRoll lib now rfw).1.1 = true
        ↔ (lib.Format now t.pattern ≠ t.timestamp ∧ rfw.Size ≠ 0))
    ∧ ((t.ShouldRoll lib now rfw).1.1 = true →
        (t.ShouldRoll lib now rfw).1.2 = t.fileName ++ ['.'] ++ t.timestamp ++ t.fileExt
        ∧ (t.ShouldRoll lib now rfw).2 = { t with timestamp := lib.Format now t.pattern })
    ∧ (lib.Format now t.pattern = t.timestamp → t.ShouldRoll lib now rfw = ((false, []), t)) := by
  unfold timePatternRollingManager.ShouldRoll
  by_cases h : lib.Format now t.pattern = t.timestamp
  · simp [h]
  · by_cases hs : rfw.Size = 0
    · simp [h, hs]
    · simp [h, hs]

end

section
open io

theorem io_pattern_Initialize_empty (lib : Lib) (os : Os) (rfw : RollingFileWriter)
    (t : timePatternRollingManager) (h : t.pattern = []) :
    (t.Initialize lib os rfw).1 = some errTimePatternNotFound := by
  simp [timePatternRollingManager.Initialize, h]

theorem io_pattern_Initialize_nonempty (lib : Lib) (os : Os) (rfw : RollingFileWriter)
    (t : timePatternRollingManager) (h : t.pattern ≠ []) :
    (t.Initialize lib os rfw).1
      = match rfw.FileInfo os with
        | Except.error err => some err
        | Except.ok _ => none := by
  unfold timePatternRollingManager.Initialize
  rw [if_neg h]
  cases rfw.FileInfo os with
  | error e => rfl
  | ok fi =>
    simp only []
    split <;> rfl

theorem io_open_with_empty_pattern (lib : Lib) (os : Os) (filePath : List Char) :
    (NewRollingFileWriter lib os filePath (NewTimePatternRollingManager [])).2 ≠ none
    ∧ (∀ f fi, (lib.Dir filePath = ['.'] ∨ os.MkdirAll = none) → os.OpenFile = Except.ok f →
        os.Stat f = Except.ok fi →
        (NewRollingFileWriter lib os filePath (NewTimePatternRollingManager [])).2
          = some errTimePatternNotFound) := by
  unfold NewRollingFileWriter RollingFileWriter.initializeWriter RollingFileWriter.openFile
  constructor
  · by_cases hdir : lib.Dir filePath ≠ ['.']
    · cases hmk : os.MkdirAll with
      | some e => simp [hdir, hmk]
      | none =>
        cases hof : os.OpenFile with
        | error e => simp [hdir, hmk, hof]
        | ok f =>
          cases hst : os.Stat f with
          | error e => simp [hdir, hmk, hof, statFile, hst]
          | ok fi =>
            simp [hdir, hmk, hof, statFile, hst, RollingManager.Initialize,
              NewTimePatternRollingManager, timePatternRollingManager.Initialize]
    · cases hof : os.OpenFile with
      | error e => simp [hdir, hof]
      | ok f =>
        cases hst : os.Stat f with
        | error e => simp [hdir, hof, statFile, hst]
        | ok fi =>
          simp [hdir, hof, statFile, hst, RollingManager.Initialize,
            NewTimePatternRollingManager, timePatternRollingManager.Initialize]
  · intro f fi hmk hof hst
    by_cases hdir : lib.Dir filePath ≠ ['.']
    · have hmk2 : os.MkdirAll = none := by
        rcases hmk with h | h
        · exact absurd h hdir
        · exact h
      simp [hdir, hmk2, hof, statFile, hst, RollingManager.Initialize,
        NewTimePatternRollingManager, timePatternRollingManager.Initialize]
    · simp [hdir, hof, statFile, hst, RollingManager.Initialize,
        NewTimePatternRollingManager, timePatternRollingManager.Initialize]

theorem io_open_with_pattern (lib : Lib) (os : Os) (filePath pattern : List Char)
    (hp : pattern ≠ [])
    (hmk : os.MkdirAll ≠ some errTimePatternNotFound)
    (hof : os.OpenFile ≠ Except.error errTimePatternNotFound)
    (hst : ∀ f, os.Stat f ≠ Except.error errTimePatternNotFound) :
    (NewRollingFileWriter lib os filePath (NewTimePatternRollingManager pattern)).2
      ≠ some errTimePatternNotFound := by
  unfold NewRollingFileWriter RollingFileWriter.initializeWriter RollingFileWriter.openFile
  have hinit : ∀ (f : File) (fi : FileInfo) (r : RollingFileWriter), r.file = some f →
      os.Stat f = Except.ok fi →
      ((NewTimePatternRollingManager pattern).Initialize lib os r).1 = none := by
    intro f fi r hf hs
    simp only [NewTimePatternRollingManager, RollingManager.Initialize]
    rw [io_pattern_Initialize_nonempty lib os r _ hp]
    simp [RollingFileWriter.FileInfo, hf, statFile, hs]
  by_cases hdir : lib.Dir filePath ≠ ['.']
  · cases hmk1 : os.MkdirAll with
    | some e =>
      simp only [hdir, hmk1, if_true, ne_eq, Option.some.injEq, not_false_eq_true]
      intro he
      exact hmk (by rw [hmk1, he])
    | none =>
      cases hof1 : os.OpenFile with
      | error e =>
        simp only [hdir, hmk1, hof1, if_true, ne_eq, Option.some.injEq, not_false_eq_true]
        intro he
        exact hof (by rw [hof1, he])
      | ok f =>
        cases hst1 : os.Stat f with
        | error e =>
          simp only [hdir, hmk1, hof1, statFile, hst1, if_true, ne_eq, Option.some.injEq,
            not_false_eq_true]
          intro he
          exact hst f (by rw [hst1, he])
        | ok fi =>
          simp only [hdir, hmk1, hof1, statFile, hst1, if_true, ne_eq, not_false_eq_true]
          rw [hinit f fi _ rfl hst1]
          simp
  · cases hof1 : os.OpenFile with
    | error e =>
      simp only [hdir, hof1, if_false, ne_eq, Option.some.injEq]
      intro he
      exact hof (by rw [hof1, he])
    | ok f =>
      cases hst1 : os.Stat f with
      | error e =>
        simp only [hdir, hof1, statFile, hst1, if_false, ne_eq, Option.some.injEq]
        intro he
        exact hst f (by rw [hst1, he])
      | ok fi =>
        simp only [hdir, hof1, statFile, hst1, if_false, ne_eq]
        rw [hinit f fi _ rfl hst1]
        simp

end

section
open io

/-- C14 at a concrete input: boundary at midnight of 2024-03-01, file of 10
bytes; asked on 2024-02-29 the policy reports nothing, asked on 2024-03-02 it
rolls to `app.20240229.log` and moves the boundary to midnight of 2024-03-03. -/
theorem C14_daily_ShouldRoll_witness :
    sampleDailyManager.ShouldRoll (sampleDay * nanosPerDay + 5) sampleWriter
      = ((false, []), sampleDailyManager)
    ∧ sampleDailyManager.ShouldRoll sampleNow sampleWriter
      = ((true, "app.20240229.log".toList),
         { sampleDailyManager with rollingPoint := (sampleDay + 3) * nanosPerDay }) :=
  ⟨(C14_daily_ShouldRoll sampleDailyManager (sampleDay * nanosPerDay + 5) sampleWriter).1
      (by decide),
   ((C14_daily_ShouldRoll sampleDailyManager sampleNow sampleWriter).2 (by decide)
      (by decide)).trans (by decide)⟩

/-- C15 at a concrete input: an empty file asked on 2024-03-02, with the daily
boundary at midnight of 2024-03-01 and with the pattern timestamp `20240229`. -/
theorem C15_empty_file_advances_boundary_witness :
    sampleDailyManager.ShouldRoll sampleNow sampleEmptyWriter
      = ((false, []), { sampleDailyManager with rollingPoint := (sampleDay + 3) * nanosPerDay })
    ∧ samplePatternManager.ShouldRoll sampleDateLib sampleNow sampleEmptyWriter
      = ((false, []), { samplePatternManager with timestamp := "20240302".toList }) :=
  ⟨((C15_empty_file_advances_boundary sampleDateLib sampleNow sampleEmptyWriter).1
      sampleDailyManager (by decide) (by decide)).trans (by decide),
   ((C15_empty_file_advances_boundary sampleDateLib sampleNow sampleEmptyWriter).2
      samplePatternManager (by decide) (by decide)).trans (by decide)⟩

/-- C16 at a concrete input: the pattern timestamp is `20240229`, the file holds
10 bytes and the policy is asked on 2024-03-02: it rolls to `app.20240229.log`
and stores `20240302`. -/
theorem C16_pattern_ShouldRoll_witness :
    (samplePatternManager.ShouldRoll sampleDateLib sampleNow sampleWriter).1.2
      = "app.20240229.log".toList
    ∧ (samplePatternManager.ShouldRoll sampleDateLib sampleNow sampleWriter).2
      = { samplePatternManager with timestamp := "20240302".toList } :=
  ⟨((C16_pattern_ShouldRoll sampleDateLib sampleNow sampleWriter samplePatternManager).2.1
      (by decide)).1.trans (by decide),
   ((C16_pattern_ShouldRoll sampleDateLib sampleNow sampleWriter samplePatternManager).2.1
      (by decide)).2.trans (by decide)⟩

theorem io_open_first_failure (lib : Lib) (os : Os) (filePath : List Char)
    (rmg : RollingManager) :
    (∀ e, lib.Dir filePath ≠ ['.'] → os.MkdirAll = some e →
        (NewRollingFileWriter lib os filePath rmg).2 = some e)
    ∧ (∀ e, (lib.Dir filePath = ['.'] ∨ os.MkdirAll = none) → os.OpenFile = Except.error e →
        (NewRollingFileWriter lib os filePath rmg).2 = some e)
    ∧ (∀ f e, (lib.Dir filePath = ['.'] ∨ os.MkdirAll = none) → os.OpenFile = Except.ok f →
        os.Stat f = Except.error e →
        (NewRollingFileWriter lib os filePath rmg).2 = some e) := by
  unfold NewRollingFileWriter RollingFileWriter.initializeWriter RollingFileWriter.openFile
  refine ⟨?_, ?_, ?_⟩
  · intro e hdir hmk
    simp [hdir, hmk]
  · intro e hmk hof
    by_cases hdir : lib.Dir filePath ≠ ['.']
    · have hmk2 : os.MkdirAll = none := hmk.resolve_left hdir
      simp [hdir, hmk2, hof]
    · simp [hdir, hof]
  · intro f e hmk hof hst
    by_cases hdir : lib.Dir filePath ≠ ['.']
    · have hmk2 : os.MkdirAll = none := hmk.resolve_left hdir
      simp [hdir, hmk2, hof, statFile, hst]
    · simp [hdir, hof, statFile, hst]

/-- C19 as stated fails: with the empty format string, when opening the file
fails the writer is not created and the error returned is the error of
`os.OpenFile`, not the missing-pattern error. -/
theorem C19_open_error_comes_first :
    (NewRollingFileWriter sampleLib (sampleOsOpenFails 5) "app.log".toList
        (NewTimePatternRollingManager [])).2
      = some "open app.log: permission denied".toList
    ∧ (NewRollingFileWriter sampleLib (sampleOsOpenFails 5) "app.log".toList
        (NewTimePatternRollingManager [])).2 ≠ some errTimePatternNotFound := by
  decide

/-- C19, amended: creating a rotating writer with a pattern policy built from
the empty format string always fails. The error is the file-system error of
the first step that failed, among creating the directory (done unless the
directory is `.`), opening the file and `Stat`; it is the missing-pattern
error `errTimePatternNotFound` whenever these steps all succeed, and the
policy's own `Initialize` returns that error on every writer. With a non-empty
format string, creation never returns that error, the operating system never
answering with it. -/
theorem C19_missing_pattern_error (lib : Lib) (os : Os) (filePath : List Char) :
    (NewRollingFileWriter lib os filePath (NewTimePatternRollingManager [])).2 ≠ none
    ∧ (∀ e, lib.Dir filePath ≠ ['.'] → os.MkdirAll = some e →
        (NewRollingFileWriter lib os filePath (NewTimePatternRollingManager [])).2 = some e)
    ∧ (∀ e, (lib.Dir filePath = ['.'] ∨ os.MkdirAll = none) → os.OpenFile = Except.error e →
        (NewRollingFileWriter lib os filePath (NewTimePatternRollingManager [])).2 = some e)
    ∧ (∀ f e, (lib.Dir filePath = ['.'] ∨ os.MkdirAll = none) → os.OpenFile = Except.ok f →
        os.Stat f = Except.error e →
        (NewRollingFileWriter lib os filePath (NewTimePatternRollingManager [])).2 = some e)
    ∧ (∀ f fi, (lib.Dir filePath = ['.'] ∨ os.MkdirAll = none) → os.OpenFile = Except.ok f →
        os.Stat f = Except.ok fi →
        (NewRollingFileWriter lib os filePath (NewTimePatternRollingManager [])).2
          = some errTimePatternNotFound)
    ∧ (∀ (rfw : RollingFileWriter) (t : timePatternRollingManager), t.pattern = [] →
        (t.Initialize lib os rfw).1 = some errTimePatternNotFound)
    ∧ (∀ pattern : List Char, pattern ≠ [] →
        os.MkdirAll ≠ some errTimePatternNotFound →
        os.OpenFile ≠ Except.error errTimePatternNotFound →
        (∀ f, os.Stat f ≠ Except.error errTimePatternNotFound) →
        (NewRollingFileWriter lib os filePath (NewTimePatternRollingManager pattern)).2
          ≠ some errTimePatternNotFound) :=
  ⟨(io_open_with_empty_pattern lib os filePath).1,
   (io_open_first_failure lib os filePath _).1,
   (io_open_first_failure lib os filePath _).2.1,
   (io_open_first_failure lib os filePath _).2.2,
   (io_open_with_empty_pattern lib os filePath).2,
   fun rfw t h => io_pattern_Initialize_empty lib os rfw t h,
   fun pattern hp hmk hof hst => io_open_with_pattern lib os filePath pattern hp hmk hof hst⟩

/-- C19, amended, at a concrete input: `app.log` with the empty format string
on an operating system where every call succeeds and on one where opening the
file fails, and with the format string `20060102`. -/
theorem C19_missing_pattern_error_witness :
    (NewRollingFileWriter sampleLib (sampleOs 5 0 0) "app.log".toList
        (NewTimePatternRollingManager [])).2 = some errTimePatternNotFound
    ∧ (NewRollingFileWriter sampleLib (sampleOsOpenFails 5) "app.log".toList
        (NewTimePatternRollingManager [])).2 = some "open app.log: permission denied".toList
    ∧ (NewRollingFileWriter sampleLib (sampleOs 5 0 0) "app.log".toList
        (NewTimePatternRollingManager "20060102".toList)).2 ≠ some errTimePatternNotFound :=
  ⟨(C19_missing_pattern_error sampleLib (sampleOs 5 0 0) "app.log".toList).2.2.2.2.1 2
      { Name := "app.log".toList, Size := 0, ModTime := 0 } (Or.inl rfl) rfl rfl,
   (C19_missing_pattern_error sampleLib (sampleOsOpenFails 5) "app.log".toList).2.2.1
      "open app.log: permission denied".toList (Or.inl rfl) rfl,
   (C19_missing_pattern_error sampleLib (sampleOs 5 0 0) "app.log".toList).2.2.2.2.2.2
      "20060102".toList (by decide) (by decide) (by simp [sampleOs])
      (by intro f; simp [sampleOs])⟩

end

/-! ## The renderer -/

section
open accesslog

theorem accesslog_splitTag_RequestHeader (arg : List Char) :
    splitTag ("RequestHeader|".toList ++ arg) = some ("RequestHeader".toList, arg) := by
  simp [splitTag, List.takeWhile, List.dropWhile]

theorem accesslog_splitTag_ResponseHeader (arg : List Char) :
    splitTag ("ResponseHeader|".toList ++ arg) = some ("ResponseHeader".toList, arg) := by
  simp [splitTag, List.takeWhile, List.dropWhile]

theorem accesslog_tagValue_RequestHeader (lib : Lib) (a : AccessLogger) (item : Item)
    (arg : List Char) :
    tagValue lib a item ("RequestHeader|".toList ++ arg)
      = if item.RequestHeader.Get arg = [] then dash else item.RequestHeader.Get arg := by
  have hs := accesslog_splitTag_RequestHeader arg
  simp only [String.toList, List.cons_append, List.nil_append] at hs
  simp [tagValue, hs]

theorem accesslog_tagValue_ResponseHeader (lib : Lib) (a : AccessLogger) (item : Item)
    (arg : List Char) :
    tagValue lib a item ("ResponseHeader|".toList ++ arg)
      = if item.ResponseHeader.Get arg = [] then dash else item.ResponseHeader.Get arg := by
  have hs := accesslog_splitTag_ResponseHeader arg
  simp only [String.toList, List.cons_append, List.nil_append] at hs
  simp [tagValue, hs]

theorem accesslog_render_one_tag (lib : Lib) (pattern ip tag : List Char) (item : Item)
    (h : buildTemplate pattern
      = Except.ok { template := '$' :: '{' :: (tag ++ ['}']), texts := [[], []], tags := [tag] }) :
    render lib pattern (Except.ok ip) item
      = Except.ok (tagValue lib
          { pattern := pattern, localIP := ip,
            template := { template := '$' :: '{' :: (tag ++ ['}']), texts := [[], []],
                          tags := [tag] } } item tag ++ ['\n']) := by
  simp [render, NewLogger, h, AccessLogger.line, Template.ExecuteFunc, executeLoop, newLine]

end

section
open accesslog

theorem accesslog_toLower_ne (c : Char) :
    (c.toLower = '}' → c = '}') ∧ (c.toLower = '%' → c = '%') := by
  unfold Char.toLower
  by_cases h : c.toNat ≥ 65 ∧ c.toNat ≤ 90
  · simp only [h, and_self, if_true]
    obtain ⟨h1, h2⟩ := h
    generalize c.toNat = n at h1 h2
    interval_cases n <;>
      exact ⟨fun he => absurd he (by decide), fun he => absurd he (by decide)⟩
  · simp only [h, if_false]
    exact ⟨id, id⟩

theorem accesslog_ToLower_chars (h : List Char) (hb : '}' ∉ h) (hp : '%' ∉ h) :
    '}' ∉ ToLower h ∧ '%' ∉ ToLower h := by
  constructor
  · intro hm
    obtain ⟨c, hc, he⟩ := List.mem_map.mp hm
    exact hb ((accesslog_toLower_ne c).1 he ▸ hc)
  · intro hm
    obtain ⟨c, hc, he⟩ := List.mem_map.mp hm
    exact hp ((accesslog_toLower_ne c).2 he ▸ hc)

end

section
open accesslog

theorem accesslog_resetLoop_tag (s rest : List Char) (hb : '}' ∉ s) :
    ∀ cur : List Char,
      resetLoop true cur (s ++ '}' :: rest)
        = (resetLoop false [] rest).map (fun r => (r.1, (cur.reverse ++ s) :: r.2)) := by
  induction s with
  | nil => intro cur; simp [resetLoop]
  | cons c s ih =>
    intro cur
    have hc : c ≠ '}' := fun e => hb (by rw [e]; exact List.mem_cons_self _ _)
    have hs : '}' ∉ s := fun e => hb (List.mem_cons_of_mem _ e)
    rw [List.cons_append, resetLoop, ih hs (c :: cur)]
    · simp
    · exact hc

theorem accesslog_NewTemplate_one_tag (tag : List Char) (hb : '}' ∉ tag) :
    NewTemplate ('$' :: '{' :: (tag ++ ['}']))
      = Except.ok { template := '$' :: '{' :: (tag ++ ['}']), texts := [[], []],
                    tags := [tag] } := by
  have h := accesslog_resetLoop_tag tag [] hb []
  simp [NewTemplate, hasStartTag, resetLoop, h]

theorem accesslog_templateText_request_tag (h : List Char) (hne : h ≠ [])
    (hb : '}' ∉ h) (hp : '%' ∉ h) :
    templateText (wholeMatch 'i' h)
      = '$' :: '{' :: (("RequestHeader|".toList ++ ToLower h) ++ ['}']) := by
  have hl := accesslog_ToLower_chars h hb hp
  have hlne : ToLower h ≠ [] := by simpa [ToLower] using hne
  rw [accesslog_templateText_request h hb hp]
  have h1 : ReplaceAllString 'i' (wholeMatch 'i' (ToLower h)) "$\x7bRequestHeader|$2\x7d".toList
      = '$' :: '{' :: (("RequestHeader|".toList ++ ToLower h) ++ ['}']) := by
    unfold ReplaceAllString
    rw [accesslog_replaceAll_wholeMatch 'i' 'i' _ (ToLower h) hl.1 hl.2 (by decide)]
    simp only [true_and, ne_eq, hlne, not_false_eq_true, if_true]
    rw [accesslog_expand_RequestHeader]
    rfl
  have hper : '%' ∉ '$' :: '{' :: (("RequestHeader|".toList ++ ToLower h) ++ ['}']) := by
    intro hm
    simp only [String.toList, List.cons_append, List.nil_append, List.mem_cons, List.mem_append,
      List.mem_singleton, List.not_mem_nil, or_false] at hm
    rcases hm with e | e | e | e | e | e | e | e | e | e | e | e | e | e | e | e | e | e
    all_goals first | exact absurd e (by decide) | exact hl.2 e
  rw [h1]
  unfold ReplaceAllStringFunc ReplaceAllString
  rw [accesslog_replaceAllAux_id 'o' _ _ 0 hper, List.drop_zero,
    accesslog_replaceAllAux_id 'o' _ _ 0 hper, List.drop_zero]

theorem accesslog_templateText_response_tag (h : List Char) (hne : h ≠ [])
    (hb : '}' ∉ h) (hp : '%' ∉ h) :
    templateText (wholeMatch 'o' h)
      = '$' :: '{' :: (("ResponseHeader|".toList ++ ToLower h) ++ ['}']) := by
  have hl := accesslog_ToLower_chars h hb hp
  have hlne : ToLower h ≠ [] := by simpa [ToLower] using hne
  rw [accesslog_templateText_response h hb hp]
  unfold ReplaceAllString
  rw [accesslog_replaceAll_wholeMatch 'o' 'o' _ (ToLower h) hl.1 hl.2 (by decide)]
  simp only [true_and, ne_eq, hlne, not_false_eq_true, if_true]
  rw [accesslog_expand_ResponseHeader]
  rfl

end

section
open accesslog

theorem accesslog_render_request_header (lib : Lib) (ip : List Char) (item : Item)
    (h : List Char) (hne : h ≠ []) (hb : '}' ∉ h) (hp : '%' ∉ h) :
    render lib (wholeMatch 'i' h) (Except.ok ip) item
      = Except.ok ((if item.RequestHeader.Get (ToLower h) = [] then dash
                    else item.RequestHeader.Get (ToLower h)) ++ ['\n']) := by
  have hl := accesslog_ToLower_chars h hb hp
  have htag : '}' ∉ "RequestHeader|".toList ++ ToLower h := by
    intro hm
    rcases List.mem_append.mp hm with e | e
    · exact absurd e (by decide)
    · exact hl.1 e
  rw [accesslog_render_one_tag lib _ ip ("RequestHeader|".toList ++ ToLower h) item
    (by rw [buildTemplate, accesslog_templateText_request_tag h hne hb hp,
          accesslog_NewTemplate_one_tag _ htag]),
    accesslog_tagValue_RequestHeader]

theorem accesslog_render_response_header (lib : Lib) (ip : List Char) (item : Item)
    (h : List Char) (hne : h ≠ []) (hb : '}' ∉ h) (hp : '%' ∉ h) :
    render lib (wholeMatch 'o' h) (Except.ok ip) item
      = Except.ok ((if item.ResponseHeader.Get (ToLower h) = [] then dash
                    else item.ResponseHeader.Get (ToLower h)) ++ ['\n']) := by
  have hl := accesslog_ToLower_chars h hb hp
  have htag : '}' ∉ "ResponseHeader|".toList ++ ToLower h := by
    intro hm
    rcases List.mem_append.mp hm with e | e
    · exact absurd e (by decide)
    · exact hl.1 e
  rw [accesslog_render_one_tag lib _ ip ("ResponseHeader|".toList ++ ToLower h) item
    (by rw [buildTemplate, accesslog_templateText_response_tag h hne hb hp,
          accesslog_NewTemplate_one_tag _ htag]),
    accesslog_tagValue_ResponseHeader]

theorem accesslog_render_F (lib : Lib) (ip : List Char) (item : Item) :
    render lib "%F".toList (Except.ok ip) item
      = Except.ok ((if item.FirstByteTime.IsZero then dash
                    else Itoa ((item.FirstByteTime.Sub item.ReceivedAt).tdiv 1000000))
                  ++ ['\n']) := by
  rw [accesslog_render_one_tag lib "%F".toList ip "FirstByteTime|ms".toList item rfl]
  rfl

theorem accesslog_render_D (lib : Lib) (ip : List Char) (item : Item) :
    render lib "%D".toList (Except.ok ip) item
      = Except.ok (Itoa (item.Latency.tdiv 1000000) ++ ['\n']) := by
  rw [accesslog_render_one_tag lib "%D".toList ip "Latency|ms".toList item rfl]
  rfl

theorem accesslog_render_b (lib : Lib) (ip : List Char) (item : Item) :
    render lib "%b".toList (Except.ok ip) item
      = Except.ok ((if item.BytesSent = 0 then dash else Itoa item.BytesSent) ++ ['\n']) := by
  rw [accesslog_render_one_tag lib "%b".toList ip "BytesSent|-".toList item rfl]
  rfl

theorem accesslog_render_B (lib : Lib) (ip : List Char) (item : Item) :
    render lib "%B".toList (Except.ok ip) item
      = Except.ok (Itoa item.BytesSent ++ ['\n']) := by
  rw [accesslog_render_one_tag lib "%B".toList ip "BytesSent|0".toList item rfl]
  rfl

theorem accesslog_render_a (lib : Lib) (ip : List Char) (item : Item) :
    render lib "%a".toList (Except.ok ip) item
      = Except.ok (getRemoteIP item.RemoteAddr ++ ['\n']) := by
  rw [accesslog_render_one_tag lib "%a".toList ip "RemoteIP".toList item rfl]
  rfl

end

section
open accesslog

theorem accesslog_Get_absent (hdr : Header) (key : List Char)
    (h : hdr.lookup (CanonicalMIMEHeaderKey key) = none) : hdr.Get key = [] := by
  simp [Header.Get, h]

end

/-- C11: for every record, a request-header directive `%{h}i` and a
response-header directive `%{h}o` (`h` a non-empty name of letters, digits and
hyphens) whose header is not present or has an empty value, so that `Get`
returns the empty string, and the directive `%F` when `FirstByteTime` is the
zero time, each compile without error and render exactly the one character
`-`, followed by the newline that ends the line. The same holds for the tag
function on every header name, and a header stored under no key equal to
the canonical name is one for which `Get` returns the empty string. -/
theorem C11_absent_values_render_dash (lib : accesslog.Lib) (ip : List Char)
    (item : accesslog.Item) (h : List Char)
    (hc : ∀ c ∈ h, c.isAlphanum = true ∨ c = '-') (hne : h ≠ []) :
    (item.RequestHeader.Get (accesslog.ToLower h) = [] →
        accesslog.render lib (accesslog.wholeMatch 'i' h) (Except.ok ip) item
          = Except.ok ['-', '\n'])
    ∧ (item.ResponseHeader.Get (accesslog.ToLower h) = [] →
        accesslog.render lib (accesslog.wholeMatch 'o' h) (Except.ok ip) item
          = Except.ok ['-', '\n'])
    ∧ (item.FirstByteTime = 0 →
        accesslog.render lib "%F".toList (Except.ok ip) item = Except.ok ['-', '\n'])
    ∧ (∀ (a : accesslog.AccessLogger) (arg : List Char), item.RequestHeader.Get arg = [] →
        accesslog.tagValue lib a item ("RequestHeader|".toList ++ arg) = ['-'])
    ∧ (∀ (a : accesslog.AccessLogger) (arg : List Char), item.ResponseHeader.Get arg = [] →
        accesslog.tagValue lib a item ("ResponseHeader|".toList ++ arg) = ['-'])
    ∧ (∀ (a : accesslog.AccessLogger), item.FirstByteTime = 0 →
        accesslog.tagValue lib a item "FirstByteTime|ms".toList = ['-'])
    ∧ (∀ (hdr : accesslog.Header) (key : List Char),
        hdr.lookup (accesslog.CanonicalMIMEHeaderKey key) = none → hdr.Get key = []) := by
  have n := accesslog_header_name_chars h hc
  refine ⟨?_, ?_, ?_, ?_, ?_, ?_, ?_⟩
  · intro hg
    rw [accesslog_render_request_header lib ip item h hne n.1 n.2, if_pos hg]
    rfl
  · intro hg
    rw [accesslog_render_response_header lib ip item h hne n.1 n.2, if_pos hg]
    rfl
  · intro hz
    rw [accesslog_render_F, hz]
    rfl
  · intro a arg hg
    rw [accesslog_tagValue_RequestHeader, if_pos hg]
    rfl
  · intro a arg hg
    rw [accesslog_tagValue_ResponseHeader, if_pos hg]
    rfl
  · intro a hz
    have hv : accesslog.tagValue lib a item "FirstByteTime|ms".toList
        = if item.FirstByteTime.IsZero then accesslog.dash
          else accesslog.Itoa ((item.FirstByteTime.Sub item.ReceivedAt).tdiv 1000000) := rfl
    rw [hv, hz]
    rfl
  · intro hdr key hk
    exact accesslog_Get_absent hdr key hk

/-- C11 at a concrete input: a record without the request header `X-Real-IP`,
without the response header `X-Cache` and without a first-byte time. -/
theorem C11_absent_values_render_dash_witness :
    accesslog.render accesslog.sampleLib "%\x7bX-Real-IP\x7di".toList
        (Except.ok "10.0.0.1".toList) accesslog.sampleItem = Except.ok "-\n".toList
    ∧ accesslog.render accesslog.sampleLib "%F".toList
        (Except.ok "10.0.0.1".toList) accesslog.sampleItem = Except.ok "-\n".toList :=
  ⟨(C11_absent_values_render_dash accesslog.sampleLib "10.0.0.1".toList accesslog.sampleItem
      "X-Real-IP".toList (by decide) (by decide)).1 (by rfl),
   (C11_absent_values_render_dash accesslog.sampleLib "10.0.0.1".toList accesslog.sampleItem
      "X-Real-IP".toList (by decide) (by decide)).2.2.1 (by rfl)⟩

/-- C12: for every record, `%D` renders the decimal integer obtained by dividing
the latency in nanoseconds by 1,000,000 with truncation toward zero, and `%F`
with `FirstByteTime` set renders the decimal integer obtained the same way from
the duration `FirstByteTime.Sub(ReceivedAt)`, which is the difference of the
two times whenever that difference fits a `time.Duration`. Truncation: for a
latency that is not negative the value rendered is the largest whole number
of milliseconds not above it. -/
theorem C12_milliseconds_are_truncated (lib : accesslog.Lib) (ip : List Char)
    (item : accesslog.Item) (hset : item.FirstByteTime ≠ 0) :
    accesslog.render lib "%D".toList (Except.ok ip) item
      = Except.ok (accesslog.Itoa (item.Latency.tdiv 1000000) ++ ['\n'])
    ∧ accesslog.render lib "%F".toList (Except.ok ip) item
      = Except.ok (accesslog.Itoa ((item.FirstByteTime.Sub item.ReceivedAt).tdiv 1000000)
          ++ ['\n'])
    ∧ (minDuration ≤ item.FirstByteTime - item.ReceivedAt →
        item.FirstByteTime - item.ReceivedAt ≤ maxDuration →
        item.FirstByteTime.Sub item.ReceivedAt = item.FirstByteTime - item.ReceivedAt)
    ∧ (0 ≤ item.Latency →
        1000000 * item.Latency.tdiv 1000000 ≤ item.Latency
        ∧ item.Latency < 1000000 * (item.Latency.tdiv 1000000 + 1)) := by
  refine ⟨accesslog_render_D lib ip item, ?_, ?_, ?_⟩
  · have hz : item.FirstByteTime.IsZero = false := by simp [Time.IsZero, hset]
    rw [accesslog_render_F, hz]
    rfl
  · intro h1 h2
    unfold Time.Sub
    rw [if_neg (not_lt.mpr h2), if_neg (not_lt.mpr h1)]
  · intro h0
    rw [Int.tdiv_eq_ediv h0 (by decide)]
    omega

/-- C12 at a concrete input: a latency of 1,999,999 ns renders `1`, and a first
byte 2,999,999 ns after the request was received renders `2`. -/
theorem C12_milliseconds_are_truncated_witness :
    accesslog.render accesslog.sampleLib "%D".toList (Except.ok "10.0.0.1".toList)
        accesslog.sampleItemServed = Except.ok "1\n".toList
    ∧ accesslog.render accesslog.sampleLib "%F".toList (Except.ok "10.0.0.1".toList)
        accesslog.sampleItemServed = Except.ok "2\n".toList :=
  ⟨(C12_milliseconds_are_truncated accesslog.sampleLib "10.0.0.1".toList
      accesslog.sampleItemServed (by decide)).1,
   (C12_milliseconds_are_truncated accesslog.sampleLib "10.0.0.1".toList
      accesslog.sampleItemServed (by decide)).2.1⟩

/-- C13, evaluated on the code: for the remote address `[2001:db8::1]:8080` of
an IPv6 client, `getRemoteIP` returns the text before the first colon, `[2001`,
and `%a` renders it; an IPv4 address with port and surrounding spaces renders
without the port, and a blank address renders the empty string. -/
theorem C13_IPv6_address_cut_at_first_colon :
    accesslog.getRemoteIP "[2001:db8::1]:8080".toList = "[2001".toList
    ∧ accesslog.render accesslog.sampleLib "%a".toList (Except.ok "10.0.0.1".toList)
        accesslog.sampleItemIPv6 = Except.ok "[2001\n".toList
    ∧ accesslog.getRemoteIP " 1.2.3.4:55 ".toList = "1.2.3.4".toList
    ∧ accesslog.getRemoteIP "  ".toList = [] :=
  ⟨rfl, rfl, rfl, rfl⟩

/-- C17: for every record and every destination writer, `log` performs exactly
one `Write` on the destination, of the rendered line, and returns exactly the
error that `Write` returned, nil when it returned nil. -/
theorem C17_log_returns_the_error_of_the_one_Write (lib : accesslog.Lib)
    (outReply : List Char → Int × Option Error) (written : List (List Char))
    (a : accesslog.AccessLogger) (item : accesslog.Item) :
    (a.log lib outReply written item).2 = written ++ [a.line lib item]
    ∧ (a.log lib outReply written item).1 = (outReply (a.line lib item)).2 := by
  simp [accesslog.AccessLogger.log, accesslog.executeError]

/-- C18: for every record, `%b` renders `-` when `BytesSent` is 0 and the decimal
value of `BytesSent` otherwise, while `%B` always renders the decimal value of
`BytesSent`, which is `0` when no bytes were sent. -/
theorem C18_bytes_sent_directives (lib : accesslog.Lib) (ip : List Char)
    (item : accesslog.Item) :
    accesslog.render lib "%b".toList (Except.ok ip) item
      = Except.ok ((if item.BytesSent = 0 then ['-'] else accesslog.Itoa item.BytesSent)
          ++ ['\n'])
    ∧ accesslog.render lib "%B".toList (Except.ok ip) item
      = Except.ok (accesslog.Itoa item.BytesSent ++ ['\n'])
    ∧ accesslog.Itoa 0 = ['0']
    ∧ (∀ x : Int, accesslog.Itoa x = (toString x).toList) := by
  refine ⟨accesslog_render_b lib ip item, accesslog_render_B lib ip item, rfl, ?_⟩
  intro x
  cases x with
  | ofNat n =>
    have hn : ¬ ((Int.ofNat n) < 0) := not_lt.mpr (Int.ofNat_nonneg n)
    simp [accesslog.Itoa, toString, Nat.repr, hn, List.asString]
  | negSucc n =>
    have hn : Int.negSucc n < 0 := Int.negSucc_lt_zero n
    simp [accesslog.Itoa, toString, Nat.repr, hn, List.asString]

/-! ## The rotating writer: size and version across a roll -/

section
open io

/-- C21: for every `Write` call (and every `WriteString` call) that finds a
rotation due and whose close and reopen succeed, the size counter is zero once
`checkRolling` has run, before the bytes are written, so `Size()` right after
the call is the number of bytes the call wrote, the count returned by the
write on the reopened file. -/
theorem C21_size_restarts_at_a_roll (lib : Lib) (os : Os) (b : List UInt8) (s : List Char)
    (r : RollingFileWriter) (f : File)
    (hdue : (r.rmg.ShouldRoll lib os.Now r).1.1 = true)
    (hclose : closeFile os r.file = none) (hopen : os.OpenFile = Except.ok f) :
    (r.checkRolling lib os).Size = 0
    ∧ (r.Write lib os b).2.Size = (r.Write lib os b).1.1
    ∧ (r.Write lib os b).1 = os.Write f b
    ∧ (r.WriteString lib os s).2.Size = (r.WriteString lib os s).1.1
    ∧ (r.WriteString lib os s).1 = os.WriteString f s := by
  have hroll := io_file_roll_of_ok lib os (r.rmg.ShouldRoll lib os.Now r).1.2
    { r with rmg := (r.rmg.ShouldRoll lib os.Now r).2 } f hclose hopen
  have hcr := io_checkRolling_of_due lib os r hdue
  have hsize : (r.checkRolling lib os).size = 0 := by rw [hcr]; exact hroll.2.1
  have hfile : (r.checkRolling lib os).file = some f := by rw [hcr]; exact hroll.1
  refine ⟨hsize, ?_, ?_, ?_, ?_⟩
  · simp [RollingFileWriter.Write, RollingFileWriter.Size, hsize]
  · simp [RollingFileWriter.Write, hfile, writeFile]
  · simp [RollingFileWriter.WriteString, RollingFileWriter.Size, hsize]
  · simp [RollingFileWriter.WriteString, hfile, writeStringFile]

/-- C21 at a concrete input: a writer holding 10 bytes, asked to write 3 bytes
on 2024-03-02 with the boundary at midnight of 2024-03-01: `Size()` is 3. -/
theorem C21_size_restarts_at_a_roll_witness :
    (sampleWriter.Write sampleLib (sampleOs sampleNow 10 0) [1, 2, 3]).2.Size = 3
    ∧ sampleWriter.Size = 10 :=
  ⟨((C21_size_restarts_at_a_roll sampleLib (sampleOs sampleNow 10 0) [1, 2, 3] ['o', 'k']
      sampleWriter 2 (by decide) (by rfl) (by rfl)).2.1).trans (by decide), by decide⟩

theorem io_rv_perform (lib : Lib) (r : RollingFileWriter) (c : WriteCall) :
    (r.perform lib c).2.rv
      = r.rv + (if (r.rmg.ShouldRoll lib c.os.Now r).1.1 = true then 1 else 0) := by
  unfold RollingFileWriter.perform
  by_cases hdue : (r.rmg.ShouldRoll lib c.os.Now r).1.1 = true
  · cases c.payload <;>
      simp [RollingFileWriter.Write, RollingFileWriter.WriteString,
        io_checkRolling_of_due lib c.os r hdue, hdue]
  · have hnot : (r.rmg.ShouldRoll lib c.os.Now r).1.1 = false := by simpa using hdue
    cases c.payload <;>
      simp [RollingFileWriter.Write, RollingFileWriter.WriteString,
        io_checkRolling_of_not_due lib c.os r hnot, hnot]

theorem io_rv_applyOp (lib : Lib) (r : RollingFileWriter) (op : Operation) :
    (r.applyOp lib op).rv = r.rv + (if r.runsRoll lib op = true then 1 else 0) := by
  cases op with
  | write c => simpa [RollingFileWriter.applyOp, RollingFileWriter.runsRoll] using
      io_rv_perform lib r c
  | close os => simp [RollingFileWriter.applyOp, RollingFileWriter.runsRoll,
      RollingFileWriter.Close]

theorem io_rv_applyAll (lib : Lib) (ops : List Operation) (r : RollingFileWriter) :
    (r.applyAll lib ops).rv = r.rv + r.rollsRun lib ops := by
  induction ops generalizing r with
  | nil => simp [RollingFileWriter.applyAll, RollingFileWriter.rollsRun]
  | cons op ops ih =>
    have h := ih (r.applyOp lib op)
    simp only [RollingFileWriter.applyAll, List.foldl_cons] at h ⊢
    rw [h, io_rv_applyOp, RollingFileWriter.rollsRun]
    ring

/-- C22 as stated fails: a write finds a roll due and closing the file fails, so
the roll does not complete, yet the rotation version goes from 0 to 1; and a
public `Roll` that completes (close, rename and reopen succeed) leaves the
version at 0. -/
theorem C22_version_counts_attempts_of_writes :
    (sampleWriter.Write sampleLib (sampleOsCloseFails sampleNow) [1, 2, 3]).2.rv = 1
    ∧ (({ sampleWriter with rmg := (sampleWriter.rmg.ShouldRoll sampleLib sampleNow
          sampleWriter).2 } : RollingFileWriter).roll sampleLib (sampleOsCloseFails sampleNow)
          "app.20240229.log".toList).1 = some "close: input/output error".toList
    ∧ (sampleWriter.Roll sampleLib (sampleOs sampleNow 10 0) "app.manual.log".toList).1 = none
    ∧ (sampleWriter.Roll sampleLib (sampleOs sampleNow 10 0) "app.manual.log".toList).2.rv = 0
    ∧ sampleWriter.rv = 0 := by
  decide

theorem io_Write_parts (lib : Lib) (os : Os) (b : List UInt8) (s : List Char)
    (r : RollingFileWriter) :
    r.Write lib os b
      = ((r.askPolicy lib os).2.afterAsking lib os (r.askPolicy lib os).1).writeUnderRLock os b
    ∧ r.WriteString lib os s
      = ((r.askPolicy lib os).2.afterAsking lib os
          (r.askPolicy lib os).1).writeStringUnderRLock os s := by
  constructor <;> rfl

theorem io_rv_afterAsking (lib : Lib) (os : Os) (a : Asked) (r : RollingFileWriter) :
    (r.afterAsking lib os a).rv
      = r.rv + (if a.shouldRoll = true ∧ a.ver = r.rv then 1 else 0) := by
  unfold RollingFileWriter.afterAsking
  by_cases hs : a.shouldRoll = true
  · by_cases hv : a.ver = r.rv
    · rw [if_pos hs, if_pos ⟨hs, hv⟩]
      exact io_rv_locked_of_eq lib os a.ver a.targetName r hv
    · rw [if_pos hs, if_neg (fun h => hv h.2), io_locked_of_ne lib os a.ver a.targetName r hv]
      simp
  · rw [if_neg hs, if_neg (fun h => hs h.1)]
    simp

/-- C22, amended: the rotation version is changed only by the part of
`checkRolling` that runs under the exclusive lock. A `Write` or `WriteString`
that found a roll due and, under the lock, still sees the version it read
before, runs `roll` and increases the version by exactly one, whether that
roll completes or fails; a caller that finds the version changed under the
lock, the question to the policy before the lock, the write itself, a write
that finds no roll due, and `Close` leave it unchanged. `Write` and
`WriteString` are these parts run one after the other, so when calls do not
overlap a write that finds a roll due increases the version by exactly one,
and over every sequence of `Write`, `WriteString` and `Close` operations the
version grows by the number of writes that found a roll due. -/
theorem C22_version_counts_rolls_run_by_writes (lib : Lib) (r : RollingFileWriter) :
    (∀ (os : Os) (a : Asked),
        (r.afterAsking lib os a).rv
          = r.rv + (if a.shouldRoll = true ∧ a.ver = r.rv then 1 else 0))
    ∧ (∀ os : Os, (r.askPolicy lib os).2.rv = r.rv ∧ (r.askPolicy lib os).1.ver = r.rv)
    ∧ (∀ (os : Os) (b : List UInt8) (s : List Char),
        (r.writeUnderRLock os b).2.rv = r.rv ∧ (r.writeStringUnderRLock os s).2.rv = r.rv)
    ∧ (∀ os : Os, (r.Close os).2.rv = r.rv)
    ∧ (∀ (os : Os) (b : List UInt8) (s : List Char),
        r.Write lib os b
          = ((r.askPolicy lib os).2.afterAsking lib os
              (r.askPolicy lib os).1).writeUnderRLock os b
        ∧ r.WriteString lib os s
          = ((r.askPolicy lib os).2.afterAsking lib os
              (r.askPolicy lib os).1).writeStringUnderRLock os s)
    ∧ (∀ op : Operation,
        (r.applyOp lib op).rv = r.rv + (if r.runsRoll lib op = true then 1 else 0))
    ∧ (∀ (os : Os) (b : List UInt8),
        (r.Write lib os b).2.rv
          = r.rv + (if (r.rmg.ShouldRoll lib os.Now r).1.1 = true then 1 else 0))
    ∧ (∀ ops : List Operation, (r.applyAll lib ops).rv = r.rv + r.rollsRun lib ops) := by
  refine ⟨fun os a => io_rv_afterAsking lib os a r, fun os => ⟨rfl, rfl⟩,
    fun os b s => ⟨rfl, rfl⟩, fun os => rfl, fun os b s => io_Write_parts lib os b s r,
    fun op => io_rv_applyOp lib r op, ?_, fun ops => io_rv_applyAll lib ops r⟩
  intro os b
  exact io_rv_perform lib r { os := os, payload := Payload.bytes b }

/-- C22, amended, at a concrete input: when calls do not overlap, a write whose
roll fails at `Close`, a write with nothing due and a `Close` take the version
from 0 to 1; and a caller that read version 0 and was told to roll, reaching
the lock when the version is already 1, leaves it at 1. -/
theorem C22_version_counts_rolls_run_by_writes_witness :
    (sampleWriter.applyAll sampleLib sampleOperations).rv = 1
    ∧ sampleWriter.rollsRun sampleLib sampleOperations = 1
    ∧ ((sampleWriter.applyAll sampleLib sampleOperations).afterAsking sampleLib
        (sampleOs sampleNow 10 0)
        { ver := 0, shouldRoll := true, targetName := "app.20240229.log".toList }).rv = 1 :=
  ⟨((C22_version_counts_rolls_run_by_writes sampleLib sampleWriter).2.2.2.2.2.2.2
      sampleOperations).trans (by decide), by decide,
   ((C22_version_counts_rolls_run_by_writes sampleLib
      (sampleWriter.applyAll sampleLib sampleOperations)).1 (sampleOs sampleNow 10 0)
      { ver := 0, shouldRoll := true, targetName := "app.20240229.log".toList }).trans
      (by decide)⟩

theorem io_daily_ShouldRoll_before (e : dailyRollingManager) (later : Time)
    (rfw2 : RollingFileWriter) (h : later < e.rollingPoint) :
    e.ShouldRoll later rfw2 = ((false, []), e) := by
  simp [dailyRollingManager.ShouldRoll, Time.Before, h]

theorem io_before_next_midnight (t : Time) : t < (t.dayNumber + 1) * nanosPerDay := by
  simp only [Time.dayNumber, nanosPerDay]
  unfold Time at *
  omega

theorem io_daily_new_boundary (e : dailyRollingManager) (t : Time) (w : RollingFileWriter)
    (h : e.rollingPoint ≤ t) :
    (e.ShouldRoll t w).2.rollingPoint = (t.dayNumber + 1) * nanosPerDay := by
  have hb : ¬ (t < e.rollingPoint) := not_lt.mpr h
  by_cases hs : w.Size = 0
  · simp [dailyRollingManager.ShouldRoll, Time.Before, hb, hs, io_beginning_of_next_day]
  · simp [dailyRollingManager.ShouldRoll, Time.Before, hb, hs, io_beginning_of_next_day]

/-- C24: for the daily policy, after a `ShouldRoll` call made at time `now` that
found the boundary passed, the new boundary is strictly later than `now`;
every later call made before the new boundary, and so every sequence of such
calls, reports no roll and leaves the policy, boundary included, unchanged;
and for any policy state, two consecutive calls at the same instant never both
report a roll. -/
theorem C24_daily_boundary_moves_past_now (d : dailyRollingManager) (now : Time)
    (rfw : RollingFileWriter) (hpassed : d.rollingPoint ≤ now) :
    now < (d.ShouldRoll now rfw).2.rollingPoint
    ∧ (∀ (later : Time) (rfw2 : RollingFileWriter),
        later < (d.ShouldRoll now rfw).2.rollingPoint →
        (d.ShouldRoll now rfw).2.ShouldRoll later rfw2 = ((false, []), (d.ShouldRoll now rfw).2))
    ∧ (∀ calls : List (Time × RollingFileWriter),
        (∀ c ∈ calls, c.1 < (d.ShouldRoll now rfw).2.rollingPoint) →
        calls.foldl (fun acc c => (acc.ShouldRoll c.1 c.2).2) (d.ShouldRoll now rfw).2
          = (d.ShouldRoll now rfw).2)
    ∧ (∀ (d0 : dailyRollingManager) (t : Time) (rfwa rfwb : RollingFileWriter),
        ¬ ((d0.ShouldRoll t rfwa).1.1 = true
            ∧ ((d0.ShouldRoll t rfwa).2.ShouldRoll t rfwb).1.1 = true)) := by
  have hquiet := io_daily_ShouldRoll_before
  have hnext := io_before_next_midnight
  have hnew := io_daily_new_boundary
  refine ⟨?_, ?_, ?_, ?_⟩
  · rw [hnew d now rfw hpassed]
    exact hnext now
  · intro later rfw2 h
    exact hquiet _ later rfw2 h
  · intro calls
    induction calls with
    | nil => intro _; rfl
    | cons c cs ih =>
      intro hall
      rw [List.foldl_cons, hquiet _ c.1 c.2 (hall c (List.mem_cons_self _ _))]
      exact ih (fun x hx => hall x (List.mem_cons_of_mem _ hx))
  · intro d0 t rfwa rfwb hboth
    by_cases hp : d0.rollingPoint ≤ t
    · have hlt : t < (d0.ShouldRoll t rfwa).2.rollingPoint := by
        rw [hnew d0 t rfwa hp]
        exact hnext t
      have h2 := hquiet _ t rfwb hlt
      rw [h2] at hboth
      exact absurd hboth.2 (by simp)
    · have h1 := hquiet d0 t rfwa (not_le.mp hp)
      rw [h1] at hboth
      exact absurd hboth.1 (by simp)

/-- C24 at a concrete input: boundary at midnight of 2024-03-01, file of 10
bytes, asked on 2024-03-02: the new boundary is midnight of 2024-03-03 and a
second call at the same instant reports nothing. -/
theorem C24_daily_boundary_moves_past_now_witness :
    sampleNow < (sampleDailyManager.ShouldRoll sampleNow sampleWriter).2.rollingPoint
    ∧ ((sampleDailyManager.ShouldRoll sampleNow sampleWriter).2.ShouldRoll sampleNow
        sampleWriter).1 = (false, []) :=
  ⟨(C24_daily_boundary_moves_past_now sampleDailyManager sampleNow sampleWriter (by decide)).1,
   congrArg Prod.fst ((C24_daily_boundary_moves_past_now sampleDailyManager sampleNow
      sampleWriter (by decide)).2.1 sampleNow sampleWriter (by decide))⟩

end

/-! ## The pattern compiler: static text -/

section
open accesslog

theorem accesslog_templateText_static (pattern : List Char) (h : '%' ∉ pattern) :
    templateText pattern = pattern := by
  unfold templateText Replace ReplaceAllString ReplaceAllStringFunc
  simp only []
  rw [accesslog_replaceAux_id pattern 0 h, List.drop_zero,
    accesslog_replaceAllAux_id 't' _ pattern 0 h, List.drop_zero,
    accesslog_replaceAllAux_id 'i' _ pattern 0 h, List.drop_zero,
    accesslog_replaceAllAux_id 'i' _ pattern 0 h, List.drop_zero,
    accesslog_replaceAllAux_id 'o' _ pattern 0 h, List.drop_zero,
    accesslog_replaceAllAux_id 'o' _ pattern 0 h, List.drop_zero]

/-- C23 as stated fails: the pattern `${Method}` contains no percent sign and
renders the request method, `GET`, not its own text; the pattern `a${`
contains no percent sign and does not compile. -/
theorem C23_static_text_with_a_tag_opener :
    '%' ∉ "$\x7bMethod\x7d".toList
    ∧ render sampleLib "$\x7bMethod\x7d".toList (Except.ok "10.0.0.1".toList) sampleItem
      = Except.ok "GET\n".toList
    ∧ '%' ∉ "a$\x7b".toList
    ∧ buildTemplate "a$\x7b".toList = Except.error errNoEndTag :=
  ⟨by decide, rfl, by decide, rfl⟩

/-- C23, amended: for every pattern string that contains neither a percent sign
nor the tag opener `${`, compilation succeeds, the template being the pattern
as one static text, and every record renders to exactly the pattern text
followed by a single newline. -/
theorem C23_static_text_maps_to_itself (pattern : List Char) (hpercent : '%' ∉ pattern)
    (htag : hasStartTag pattern = false) :
    buildTemplate pattern = Except.ok { template := pattern, texts := [], tags := [] }
    ∧ (∀ (lib : Lib) (ip : List Char) (item : Item),
        render lib pattern (Except.ok ip) item = Except.ok (pattern ++ ['\n'])) := by
  have hb : buildTemplate pattern
      = Except.ok { template := pattern, texts := [], tags := [] } := by
    simp [buildTemplate, accesslog_templateText_static pattern hpercent, NewTemplate, htag]
  refine ⟨hb, ?_⟩
  intro lib ip item
  simp [render, NewLogger, hb, AccessLogger.line, Template.ExecuteFunc, newLine]

/-- C23, amended, at a concrete input: the pattern `access {ok} $5`. -/
theorem C23_static_text_maps_to_itself_witness :
    buildTemplate "access \x7bok\x7d $5".toList
      = Except.ok { template := "access \x7bok\x7d $5".toList, texts := [], tags := [] }
    ∧ render sampleLib "access \x7bok\x7d $5".toList (Except.ok "10.0.0.1".toList) sampleItem
      = Except.ok "access \x7bok\x7d $5\n".toList :=
  ⟨(C23_static_text_maps_to_itself "access \x7bok\x7d $5".toList (by decide) (by rfl)).1,
   (C23_static_text_maps_to_itself "access \x7bok\x7d $5".toList (by decide) (by rfl)).2
      sampleLib "10.0.0.1".toList sampleItem⟩

/-! ## The pattern compiler: directives that are not well formed -/

theorem accesslog_lookupOld_no_old (pairs : List (List Char × List Char)) (s : List Char)
    (h : ∀ p ∈ pairs, ¬ p.1 <:+: s) : lookupOld pairs s = none := by
  unfold lookupOld
  rw [List.find?_eq_none]
  intro p hp hpre
  exact h p hp (List.isPrefixOf_iff_prefix.mp hpre).isInfix

theorem accesslog_replaceAux_no_old (pairs : List (List Char × List Char)) (s : List Char) :
    ∀ k : Nat, (∀ p ∈ pairs, ¬ p.1 <:+: s) → replaceAux pairs k s = s.drop k := by
  induction s with
  | nil => intro k _; cases k <;> rfl
  | cons c s ih =>
    intro k hs
    have hs2 : ∀ p ∈ pairs, ¬ p.1 <:+: s := fun p hp hi => hs p hp (List.infix_cons hi)
    cases k with
    | succ k => simpa [replaceAux] using ih k hs2
    | zero =>
      rw [replaceAux, accesslog_lookupOld_no_old pairs (c :: s) hs]
      simpa using ih 0 hs2

theorem accesslog_matchDirective_no_brace (x : Char) (s : List Char) (hb : '}' ∉ s) :
    matchDirective x s = none := by
  cases h : matchDirective x s with
  | none => rfl
  | some name =>
    obtain ⟨rest, hr⟩ := accesslog_matchDirective_some x s name h
    exact absurd (by rw [hr]; simp [wholeMatch]) hb

theorem accesslog_replaceAllAux_no_brace (x : Char) (repl : List Char → List Char)
    (s : List Char) : ∀ k : Nat, '}' ∉ s → replaceAllAux x repl k s = s.drop k := by
  induction s with
  | nil => intro k _; cases k <;> rfl
  | cons c s ih =>
    intro k hs
    have hs2 : '}' ∉ s := fun e => hs (List.mem_cons_of_mem _ e)
    cases k with
    | succ k => simpa [replaceAllAux] using ih k hs2
    | zero =>
      rw [replaceAllAux, accesslog_matchDirective_no_brace x (c :: s) hs]
      simpa using ih 0 hs2

theorem accesslog_templateText_literal (pattern : List Char) (hb : '}' ∉ pattern)
    (hd : ∀ p ∈ directives, ¬ p.1 <:+: pattern) : templateText pattern = pattern := by
  unfold templateText Replace ReplaceAllString ReplaceAllStringFunc
  simp only []
  rw [accesslog_replaceAux_no_old directives pattern 0 hd, List.drop_zero,
    accesslog_replaceAllAux_no_brace 't' _ pattern 0 hb, List.drop_zero,
    accesslog_replaceAllAux_no_brace 'i' _ pattern 0 hb, List.drop_zero,
    accesslog_replaceAllAux_no_brace 'i' _ pattern 0 hb, List.drop_zero,
    accesslog_replaceAllAux_no_brace 'o' _ pattern 0 hb, List.drop_zero,
    accesslog_replaceAllAux_no_brace 'o' _ pattern 0 hb, List.drop_zero]

theorem accesslog_hasStartTag_no_dollar (s : List Char) (h : '$' ∉ s) :
    hasStartTag s = false := by
  induction s with
  | nil => rfl
  | cons c s ih =>
    have hc : c ≠ '$' := fun e => h (by rw [e]; exact List.mem_cons_self _ _)
    have hs : hasStartTag s = false := ih (fun e => h (List.mem_cons_of_mem _ e))
    unfold hasStartTag
    split
    · rename_i heq
      exact absurd (List.cons.inj heq).1 hc
    · rename_i heq
      rw [← (List.cons.inj heq).2]
      exact hs
    · rename_i heq
      exact absurd heq (by simp)

/-- C3, amended: every pattern string that contains no dollar sign compiles:
`buildTemplate` returns a template, and `NewLogger` returns a logger with it
whenever `localIP` succeeds. If moreover the pattern contains no closing brace
and none of the fourteen single-letter directives (the old strings of the
replacer: `%a %A %b %B %H %m %q %r %s %t %U %D %T %F`) occurs in it, then
every percent sign in it, such as one followed by an unsupported letter
(`%z`) or one that opens a brace directive which is never closed
(`%{Host i`), is kept as literal text: the template is the pattern itself, and
every record renders to the pattern text followed by a newline. -/
theorem C3_pattern_without_dollar_compiles (pattern : List Char) (h : '$' ∉ pattern) :
    (∃ t, buildTemplate pattern = Except.ok t
      ∧ ∀ ip : List Char, NewLogger pattern (Except.ok ip)
          = Except.ok { pattern := pattern, localIP := ip, template := t })
    ∧ ('}' ∉ pattern → (∀ p ∈ directives, ¬ p.1 <:+: pattern) →
        buildTemplate pattern = Except.ok { template := pattern, texts := [], tags := [] }
        ∧ (∀ ip : List Char, NewLogger pattern (Except.ok ip)
            = Except.ok { pattern := pattern, localIP := ip,
                          template := { template := pattern, texts := [], tags := [] } })
        ∧ (∀ (lib : Lib) (ip : List Char) (item : Item),
            render lib pattern (Except.ok ip) item = Except.ok (pattern ++ ['\n']))) := by
  constructor
  · obtain ⟨t, ht⟩ := accesslog_NewTemplate_ok (templateText pattern)
      (by rw [accesslog_scan_templateText pattern h]; decide)
    exact ⟨t, ht, fun ip => by simp [NewLogger, buildTemplate, ht]⟩
  · intro hb hd
    have hbt : buildTemplate pattern
        = Except.ok { template := pattern, texts := [], tags := [] } := by
      simp [buildTemplate, accesslog_templateText_literal pattern hb hd, NewTemplate,
        accesslog_hasStartTag_no_dollar pattern h]
    refine ⟨hbt, fun ip => by simp [NewLogger, hbt], ?_⟩
    intro lib ip item
    simp [render, NewLogger, hbt, AccessLogger.line, Template.ExecuteFunc, newLine]

/-- C3, amended, at concrete inputs: the pattern `%z %{Host i %s` compiles; the
patterns `%z` and `%{Host i` render to themselves followed by a newline. -/
theorem C3_pattern_without_dollar_compiles_witness :
    (∃ t, buildTemplate "%z %\x7bHost i %s".toList = Except.ok t
      ∧ ∀ ip : List Char, NewLogger "%z %\x7bHost i %s".toList (Except.ok ip)
          = Except.ok { pattern := "%z %\x7bHost i %s".toList, localIP := ip,
                        template := t })
    ∧ render sampleLib "%z".toList (Except.ok "10.0.0.1".toList) sampleItem
        = Except.ok "%z\n".toList
    ∧ render sampleLib "%\x7bHost i".toList (Except.ok "10.0.0.1".toList) sampleItem
        = Except.ok "%\x7bHost i\n".toList :=
  ⟨(C3_pattern_without_dollar_compiles "%z %\x7bHost i %s".toList (by decide)).1,
   ((C3_pattern_without_dollar_compiles "%z".toList (by decide)).2 (by decide)
      (by decide)).2.2 sampleLib "10.0.0.1".toList sampleItem,
   ((C3_pattern_without_dollar_compiles "%\x7bHost i".toList (by decide)).2 (by decide)
      (by decide)).2.2 sampleLib "10.0.0.1".toList sampleItem⟩

end
